import Mathlib

/-!
# piad: session controller and network reconciler

A shallow embedding of `controller.go` and of the `link` package
(`link.go`, `sync.go`, `clean.go`, `handshake.go`).

The Go code talks to three outside parties: the kernel (netlink and the
WireGuard control socket), the provider (server directory and `addKey`), and
the clock / cancellation context.  They are modelled by one `World` value:
the kernel by an in-memory network state with list / add / replace / delete
semantics, the provider and the clock by reply functions that are consulted
in call order.  Every call that leaves the process is recorded, in order, in
the `calls` component of a result, so that ordering and "no call is issued"
statements can be made about the code.
-/

namespace Piad

/-! ## Values -/

/-- A `net.IP` up to `IP.Equal`. -/
abbrev IP := Nat

/-- The address `0.0.0.0`. -/
def IPv4zero : IP := 0

/-- A `wgtypes.Key`; the zero key `wgtypes.Key{}` is `0`. -/
abbrev Key := Nat

/-- A `time.Duration`, in nanoseconds. -/
abbrev Duration := Int

/-- A `time.Time`, in nanoseconds since an arbitrary origin. -/
abbrev Time := Int

def Millisecond : Duration := 1000000

def Second : Duration := 1000 * Millisecond

/-- The constant `link.KeepaliveInterval`. -/
def KeepaliveInterval : Duration := 5 * Second

/-- The constant `link.FwMark`, which is also the number of the dedicated table. -/
def FwMark : Int := 1337

/-- The constant `http.StatusConflict`. -/
def StatusConflict : Nat := 409

/-- A `net.UDPAddr`. -/
structure UDPAddr where
  IP : IP
  Port : Nat
  Zone : String
deriving DecidableEq, Repr

/-- A `net.IPNet`; the mask is kept as the pair that `Mask.Size()` returns. -/
structure IPNet where
  IP : IP
  ones : Nat
  bits : Nat
deriving DecidableEq, Repr

/-- The value `net.CIDRMask(ones, bits)` as the pair `Mask.Size()` gives back for
it: a mask exists only for 32 and 128 bits, and the nil mask has size `(0, 0)`. -/
def CIDRMask (ones bits : Nat) : Nat × Nat :=
  if (bits = 32 ∨ bits = 128) ∧ ones ≤ bits then (ones, bits) else (0, 0)

/-- A `wgtypes.Peer` as read from the device. -/
structure Peer where
  PublicKey : Key
  PresharedKey : Key
  Endpoint : Option UDPAddr
  PersistentKeepaliveInterval : Duration
  LastHandshakeTime : Time
  AllowedIPs : List IPNet
deriving DecidableEq, Repr

/-- A `netlink.Addr` of the interface. -/
structure Addr where
  IP : IP
  ones : Nat
  bits : Nat
deriving DecidableEq, Repr

/-- A `netlink.Route`; `Dst = none` is the nil destination, `Gw = none` the nil
gateway. -/
structure Route where
  LinkIndex : Nat
  Dst : Option IPNet
  Gw : Option IP
  Table : Int
  Scope : Nat
  Priority : Int
deriving DecidableEq, Repr

/-- The constant `netlink.SCOPE_LINK`. -/
def SCOPE_LINK : Nat := 253

/-- A `netlink.Rule`, with the fields the code reads or sets. -/
structure Rule where
  Priority : Int
  Mark : Int
  Mask : Int
  Table : Int
  Invert : Bool
  SuppressIfgroup : Int
  SuppressPrefixlen : Int
  Goto : Int
  Flow : Int
deriving DecidableEq, Repr

/-- A `session.Session`. -/
structure Session where
  Status : String
  ServerKey : Key
  ServerPort : Nat
  ServerAddr : UDPAddr
  ServerIP : IP
  ServerVIP : IP
  PeerIP : IP
  RawPeerIP : String
  PeerPubKey : Key
  DNSServers : List IP
deriving DecidableEq, Repr

/-- The zero value of `session.Session`. -/
def Session.zero : Session :=
  ⟨"", 0, 0, ⟨0, 0, ""⟩, 0, 0, 0, "", 0, []⟩

/-- A `session.Server`. -/
structure Server where
  Addr : UDPAddr
  CommonName : String
deriving DecidableEq, Repr

/-- The struct `piad.Controller`. -/
structure Controller where
  LinkName : String
  RegionDNS : String
  Username : String
  Password : String
deriving DecidableEq, Repr

/-- A `link.Link`: the name of the interface. -/
abbrev Link := String

/-- A `wgtypes.PeerConfig`; an absent pointer field is `none`. -/
structure PeerConfig where
  PublicKey : Key
  Endpoint : Option UDPAddr
  PersistentKeepaliveInterval : Option Duration
  ReplaceAllowedIPs : Bool
  AllowedIPs : List IPNet
deriving DecidableEq, Repr

/-- A `wgtypes.Config`; an absent pointer field is `none`. -/
structure Config where
  PrivateKey : Option Key
  FirewallMark : Option Int
  ReplacePeers : Bool
  Peers : List PeerConfig
deriving DecidableEq, Repr

/-! ## Calls that leave the process -/

/-- One call to a party outside the process, or one line written to the log. -/
inductive Call where
  | getServers
  | newKey
  | addKey
  | sleep (d : Duration)
  | log (text : String)
  | wgNew
  | linkByName (name : String)
  | linkAdd (name : String)
  | linkDel (index : Nat)
  | linkSetUp (index : Nat)
  | device (name : String)
  | configureDevice (name : String) (cfg : Config)
  | addrList (index : Nat)
  | addrAdd (index : Nat) (a : Addr)
  | addrDel (index : Nat) (a : Addr)
  | routeList (table : Int)
  | routeAdd (r : Route)
  | routeReplace (r : Route)
  | routeDel (r : Route)
  | ruleList
  | ruleAdd (r : Rule)
  | ruleDel (r : Rule)
deriving DecidableEq, Repr

/-! ## Errors -/

/-- Go `error` values.  `wrap` is `fmt.Errorf` with a `%w` verb, `sys` the error
of a call that the outside party refused, `linkNotFound` the
`netlink.LinkNotFoundError`, `notExist` and `exist` the errors `os.ErrNotExist`
and `os.ErrExist`. -/
inductive Err where
  | msg (text : String)
  | wrap (text : String) (cause : Err)
  | invalidController (c : Controller)
  | status (code : Nat)
  | canceled
  | needsReAdd
  | needsSync
  | tunnelDead
  | keyMismatch
  | linkNotFound
  | notExist
  | exist
  | noEntry
  | sys (c : Call)
deriving DecidableEq, Repr

/-- The function `errors.Is`: the target is looked for along the `%w` chain. -/
def Err.is : Err → Err → Bool
  | .wrap t c, target => (Err.wrap t c == target) || Err.is c target
  | e, target => e == target

deriving instance DecidableEq for Except

/-! ## The world outside the process -/

/-- The interface the controller owns, as the kernel holds it: the netlink side
(index, up flag, IPv4 addresses) and the WireGuard side (keys, mark, peers). -/
structure Dev where
  Index : Nat
  up : Bool
  addrs : List Addr
  PrivateKey : Key
  PublicKey : Key
  FirewallMark : Int
  Peers : List Peer
deriving DecidableEq, Repr

/-- The struct `controllerState`. -/
structure controllerState where
  ctlr : Controller
  l : Link
  pk : Key
  srv : Server
  sn : Session
  isRefresh : Bool
  lastHandshake : Time
deriving DecidableEq, Repr

/-- Everything the code reads or changes besides its own locals.

* `dev`, `routes`, `rules`: the kernel state; `dev` is the interface of the name
  the controller uses, `routes` the IPv4 routes of all tables, `rules` the IPv4
  policy rules.  Nobody but the code under study changes them.
* `fault`: the calls the outside party refuses.
* `servers`, `keygen`, `pubOf`, `auth`: the replies of `session.GetServers`, of
  `wgtypes.GeneratePrivateKey`, the public key of a secret key, and the reply of
  the n-th `Server.AddKey` call (Go returns a session and an error together).
* `cancel n`: whether the context is done first in the n-th `select`.
* `now n`: the reading of the n-th `time.Now()`.
* `cs`: the `controllerState` behind the pointer receiver. -/
structure World where
  dev : Option Dev
  routes : List Route
  rules : List Rule
  ifindex : Nat
  fault : Call → Bool
  servers : Except Err (String → List Server)
  keygen : Key × Option Err
  pubOf : Key → Key
  auth : Nat → Session × Option Err
  authCalls : Nat
  cancel : Nat → Bool
  waits : Nat
  now : Nat → Time
  nows : Nat
  cs : controllerState

/-- The outcome of running a piece of code: what it returned, the world it left,
and the calls it issued, in order. -/
structure Res (α : Type) where
  val : Except Err α
  world : World
  calls : List Call

/-- Code that runs in a world. -/
def M (α : Type) : Type := World → Res α

/-- Return a value, touching nothing. -/
def M.pure {α : Type} (a : α) : M α := fun w => ⟨.ok a, w, []⟩

/-- Run `m`, then `f` on its value; an error of `m` ends the run. -/
def M.bind {α β : Type} (m : M α) (f : α → M β) : M β := fun w =>
  match m w with
  | ⟨.ok a, w1, c1⟩ =>
    match f a w1 with
    | ⟨v, w2, c2⟩ => ⟨v, w2, c1 ++ c2⟩
  | ⟨.error e, w1, c1⟩ => ⟨.error e, w1, c1⟩

instance : Monad M where
  pure := M.pure
  bind := M.bind

/-- Return the error `e`. -/
def fail {α : Type} (e : Err) : M α := fun w => ⟨.error e, w, []⟩

/-- Run `m` and hand its error to the caller as a value, as Go does when the
caller inspects `err` itself. -/
def attempt {α : Type} (m : M α) : M (Except Err α) := fun w =>
  match m w with
  | ⟨v, w1, c1⟩ => ⟨.ok v, w1, c1⟩

/-- Read the world. -/
def getWorld : M World := fun w => ⟨.ok w, w, []⟩

/-- Change the world. -/
def modifyWorld (f : World → World) : M Unit := fun w => ⟨.ok (), f w, []⟩

/-- Issue the call `c`: it is recorded; if the outside party refuses it the
call fails with `Err.sys c` and changes nothing, otherwise `f` gives its result
and effect. -/
def call {α : Type} (c : Call) (f : World → Except Err α × World) : M α := fun w =>
  if w.fault c then ⟨.error (.sys c), w, [c]⟩
  else
    match f w with
    | (v, w1) => ⟨v, w1, [c]⟩

/-- The call `log.Printf`. -/
def logPrintf (text : String) : M Unit := fun w => ⟨.ok (), w, [.log text]⟩

/-- Run `m` and wrap its error, as `fmt.Errorf` with `%w` on the way out. -/
def wrapErr {α : Type} (text : String) (m : M α) : M α := fun w =>
  match m w with
  | ⟨.ok a, w1, c1⟩ => ⟨.ok a, w1, c1⟩
  | ⟨.error e, w1, c1⟩ => ⟨.error (.wrap text e), w1, c1⟩

/-! ## The kernel: netlink and the WireGuard control socket

An in-memory model of the calls the code makes.  Lists answer from the state,
adds append, deletes remove the first equal entry.  The library itself is not
part of the repository.  `LinkByName` reports a missing link with a
`LinkNotFoundError`, which wraps a plain message and has neither an `Is` nor an
`Unwrap` method, so `errors.Is` does not take it for `os.ErrNotExist`; `LinkAdd`
reports an existing link with an error that is `os.ErrExist`; a default route is
listed with a nil `Dst`. -/

/-- The zero `time.Time`, relative to the Unix epoch. -/
def zeroTime : Time := -62135596800 * Second

/-- What `netlink.LinkByName` hands back: the link attributes at that moment. -/
structure NLink where
  Index : Nat
  FlagUp : Bool
deriving DecidableEq, Repr

/-- Run `f` on the interface of index `index`. -/
def onDev {α : Type} (index : Nat) (f : Dev → Except Err α × Dev) (w : World) :
    Except Err α × World :=
  match w.dev with
  | none => (.error .notExist, w)
  | some d =>
    if d.Index = index then
      match f d with
      | (v, d1) => (v, { w with dev := some d1 })
    else (.error .notExist, w)

def netlink.LinkByName (name : String) : M NLink :=
  call (.linkByName name) fun w =>
    match w.dev with
    | none => (.error .linkNotFound, w)
    | some d => (.ok ⟨d.Index, d.up⟩, w)

def netlink.LinkAdd (name : String) : M Unit :=
  call (.linkAdd name) fun w =>
    match w.dev with
    | some _ => (.error .exist, w)
    | none => (.ok (), { w with dev := some ⟨w.ifindex, false, [], 0, 0, 0, []⟩ })

def netlink.LinkDel (nl : NLink) : M Unit :=
  call (.linkDel nl.Index) fun w =>
    match w.dev with
    | none => (.error .notExist, w)
    | some d => if d.Index = nl.Index then (.ok (), { w with dev := none })
                else (.error .notExist, w)

def netlink.LinkSetUp (nl : NLink) : M Unit :=
  call (.linkSetUp nl.Index) (onDev nl.Index fun d => (.ok (), { d with up := true }))

def netlink.AddrList (nl : NLink) : M (List Addr) :=
  call (.addrList nl.Index) (onDev nl.Index fun d => (.ok d.addrs, d))

def netlink.AddrAdd (nl : NLink) (a : Addr) : M Unit :=
  call (.addrAdd nl.Index a) (onDev nl.Index fun d =>
    if a ∈ d.addrs then (.error .exist, d)
    else (.ok (), { d with addrs := d.addrs ++ [a] }))

def netlink.AddrDel (nl : NLink) (a : Addr) : M Unit :=
  call (.addrDel nl.Index a) (onDev nl.Index fun d =>
    if a ∈ d.addrs then (.ok (), { d with addrs := d.addrs.erase a })
    else (.error .noEntry, d))

/-- The destination as the kernel keeps it: a prefix of length zero is the
default route, which is listed with a nil `Dst`. -/
def normDst : Option IPNet → Option IPNet
  | none => none
  | some n => if n.ones = 0 then none else some n

/-- The route as the kernel keeps it. -/
def Route.norm (r : Route) : Route := { r with Dst := normDst r.Dst }

/-- Two routes the kernel takes for the same entry: same table, destination and
metric. -/
def Route.sameKey (a b : Route) : Bool :=
  a.Table == b.Table && a.Dst == b.Dst && a.Priority == b.Priority

/-- Replace the first entry with the key of `r` by `r`; `none` if there is none. -/
def replaceRoute (r : Route) : List Route → Option (List Route)
  | [] => none
  | x :: xs =>
    if x.sameKey r then some (r :: xs)
    else (replaceRoute r xs).map (x :: ·)

/-- The call `netlink.RouteListFiltered` with `RT_FILTER_TABLE`. -/
def netlink.RouteListFiltered (table : Int) : M (List Route) :=
  call (.routeList table) fun w => (.ok (w.routes.filter (·.Table == table)), w)

def netlink.RouteAdd (r : Route) : M Unit :=
  call (.routeAdd r) fun w =>
    if w.routes.any (·.sameKey r.norm) then (.error .exist, w)
    else (.ok (), { w with routes := w.routes ++ [r.norm] })

def netlink.RouteReplace (r : Route) : M Unit :=
  call (.routeReplace r) fun w =>
    match replaceRoute r.norm w.routes with
    | some rs => (.ok (), { w with routes := rs })
    | none => (.ok (), { w with routes := w.routes ++ [r.norm] })

def netlink.RouteDel (r : Route) : M Unit :=
  call (.routeDel r) fun w =>
    if r ∈ w.routes then (.ok (), { w with routes := w.routes.erase r })
    else (.error .noEntry, w)

def netlink.RuleList : M (List Rule) :=
  call .ruleList fun w => (.ok w.rules, w)

def netlink.RuleAdd (r : Rule) : M Unit :=
  call (.ruleAdd r) fun w =>
    if r ∈ w.rules then (.error .exist, w)
    else (.ok (), { w with rules := w.rules ++ [r] })

def netlink.RuleDel (r : Rule) : M Unit :=
  call (.ruleDel r) fun w =>
    if r ∈ w.rules then (.ok (), { w with rules := w.rules.erase r })
    else (.error .noEntry, w)

/-- The call `wgctrl.New`. -/
def wgctrl.New : M Unit :=
  call .wgNew fun w => (.ok (), w)

/-- The call `Client.Device`. -/
def wgctrl.Device (name : String) : M Dev :=
  call (.device name) fun w =>
    match w.dev with
    | none => (.error .notExist, w)
    | some d => (.ok d, w)

/-- The peer after one `PeerConfig` is applied to it. -/
def updatePeer (p : Peer) (pc : PeerConfig) : Peer :=
  { p with
    Endpoint := match pc.Endpoint with
      | some e => some e
      | none => p.Endpoint
    PersistentKeepaliveInterval := match pc.PersistentKeepaliveInterval with
      | some k => k
      | none => p.PersistentKeepaliveInterval
    AllowedIPs := if pc.ReplaceAllowedIPs then pc.AllowedIPs
      else p.AllowedIPs ++ pc.AllowedIPs }

/-- Apply one `PeerConfig`: the peer of that public key is updated, or created
with no pre-shared key and no handshake. -/
def applyPeerConfig (ps : List Peer) (pc : PeerConfig) : List Peer :=
  if ps.any (·.PublicKey == pc.PublicKey) then
    ps.map fun p => if p.PublicKey == pc.PublicKey then updatePeer p pc else p
  else ps ++ [updatePeer ⟨pc.PublicKey, 0, none, 0, zeroTime, []⟩ pc]

/-- The device after a `wgtypes.Config` is applied. -/
def configureDev (pubOf : Key → Key) (d : Dev) (cfg : Config) : Dev :=
  let d1 : Dev := match cfg.PrivateKey with
    | some k => { d with PrivateKey := k, PublicKey := pubOf k }
    | none => d
  let d2 : Dev := match cfg.FirewallMark with
    | some m => { d1 with FirewallMark := m }
    | none => d1
  { d2 with Peers := cfg.Peers.foldl applyPeerConfig (if cfg.ReplacePeers then [] else d2.Peers) }

/-- The call `Client.ConfigureDevice`. -/
def wgctrl.ConfigureDevice (name : String) (cfg : Config) : M Unit :=
  call (.configureDevice name cfg) fun w =>
    match w.dev with
    | none => (.error .notExist, w)
    | some d => (.ok (), { w with dev := some (configureDev w.pubOf d cfg) })

/-! ## link.go -/

/-- The method `Link.setKey`. -/
def Link.setKey (l : Link) (sk : Key) : M Unit := do
  wgctrl.New
  wgctrl.ConfigureDevice l ⟨some sk, none, false, []⟩

/-- The method `Link.Start`. -/
def Link.Start (l : Link) (sk : Key) : M Unit := do
  let err ← attempt (netlink.LinkAdd l)
  match err with
  | .error e => if !(e.is .exist) then fail e else Link.setKey l sk
  | .ok _ => Link.setKey l sk

/-! ## handshake.go -/

/-- The method `Link.LastHandshake`. -/
def Link.LastHandshake (l : Link) : M Time := do
  wgctrl.New
  let dev ← wgctrl.Device l
  match dev.Peers with
  | [p] => pure p.LastHandshakeTime
  | _ => fail .needsSync

/-! ## sync.go -/

/-- The function `udpAddrEqual`; the arguments are pointers, `none` is nil. -/
def udpAddrEqual : Option UDPAddr → Option UDPAddr → Bool
  | some a, some b => a.IP == b.IP && a.Port == b.Port && a.Zone == b.Zone
  | none, none => true
  | _, _ => false

/-- The address loop of `applyLinkState`: every address whose IP is not the
peer IP is deleted; the result is `hasAddr`. -/
def Link.applyLinkState.loop (l : Link) (nl : NLink) (s : Session) : List Addr → Bool → M Bool
  | [], hasAddr => pure hasAddr
  | addr :: rest, hasAddr =>
    if addr.IP == s.PeerIP then Link.applyLinkState.loop l nl s rest true
    else do
      wrapErr "error removing superfluous address" (netlink.AddrDel nl addr)
      Link.applyLinkState.loop l nl s rest hasAddr

/-- The method `Link.applyLinkState`. -/
def Link.applyLinkState (l : Link) (nl : NLink) (s : Session) : M Unit := do
  wrapErr "couldn't set wg link up" (netlink.LinkSetUp nl)
  let addrs ← wrapErr "error listing addrs" (netlink.AddrList nl)
  let hasAddr ← Link.applyLinkState.loop l nl s addrs false
  if hasAddr then pure ()
  else
    wrapErr "could not add address"
      (netlink.AddrAdd nl ⟨s.PeerIP, (CIDRMask 32 32).1, (CIDRMask 32 32).2⟩)

/-- The peer list that `applyDev` writes. -/
def desiredPeers (s : Session) : List PeerConfig :=
  [⟨s.ServerKey, some s.ServerAddr, some KeepaliveInterval, true,
    [⟨IPv4zero, (CIDRMask 0 32).1, (CIDRMask 0 32).2⟩]⟩]

/-- The method `Link.applyDev`. -/
def Link.applyDev (l : Link) (nl : NLink) (s : Session) : M Unit := do
  wrapErr "failed to configure wg device"
    (wgctrl.ConfigureDevice l ⟨none, some FwMark, true, desiredPeers s⟩)
  Link.applyLinkState l nl s

/-- The method `Link.syncDev`.  The closures `applyDev` and `applyLinkState`
return `true` together with a nil error. -/
def Link.syncDev (l : Link) (s : Session) : M Bool := do
  wgctrl.New
  let nl ← wrapErr "couldn't get wg link (which should exist by now)" (netlink.LinkByName l)
  let applyDev : M Bool := do Link.applyDev l nl s; pure true
  let dev ← wgctrl.Device l
  if dev.PublicKey != s.PeerPubKey then fail .keyMismatch
  else match dev.Peers with
  | [p] =>
    if !udpAddrEqual p.Endpoint (some s.ServerAddr) then applyDev
    else match p.AllowedIPs with
    | [a] =>
      if a.bits != 32 && a.ones != 0 then applyDev
      else if p.PresharedKey != 0 then applyDev
      else if p.PublicKey != s.ServerKey then applyDev
      else if p.PersistentKeepaliveInterval != KeepaliveInterval then applyDev
      else do
        let applyLinkState : M Bool := do Link.applyLinkState l nl s; pure true
        let addrs ← wrapErr "error listing addrs" (netlink.AddrList nl)
        match addrs with
        | [addr] =>
          if !(addr.IP == s.PeerIP) then applyLinkState
          else if !nl.FlagUp then applyLinkState
          else pure false
        | _ => applyLinkState
    | _ => applyDev
  | _ => applyDev

/-- The function `getOurRoutingTable`. -/
def getOurRoutingTable : M (List Route) :=
  netlink.RouteListFiltered FwMark

/-- The three variables the loop of `syncRoutingTables` fills. -/
structure RouteClasses where
  existingGatewayStaticRoute : Option Route
  existingDefaultRoute : Option Route
  unknownRoutes : List Route
deriving DecidableEq, Repr

/-- The classification loop of `syncRoutingTables`. -/
def classifyRoutes (s : Session) : List Route → RouteClasses → RouteClasses
  | [], acc => acc
  | r :: rs, acc =>
    match r.Dst with
    | none => classifyRoutes s rs { acc with existingDefaultRoute := some r }
    | some dst =>
      if dst.bits == 32 && dst.ones == 32 && dst.IP == s.ServerVIP then
        classifyRoutes s rs { acc with existingGatewayStaticRoute := some r }
      else classifyRoutes s rs { acc with unknownRoutes := acc.unknownRoutes ++ [r] }

/-- The method `Link.syncGatewayStaticRoute`. -/
def Link.syncGatewayStaticRoute (l : Link) (s : Session)
    (oldGatewayStaticRoute : Option Route) : M Bool :=
  match oldGatewayStaticRoute with
  | some _ => pure false
  | none => do
    let nl ← netlink.LinkByName l
    netlink.RouteAdd
      ⟨nl.Index, some ⟨s.ServerVIP, (CIDRMask 32 32).1, (CIDRMask 32 32).2⟩, none, FwMark,
        SCOPE_LINK, 0⟩
    pure true

/-- The route that `syncDefaultRoute` writes. -/
def defaultRoute (s : Session) : Route :=
  ⟨0, some ⟨IPv4zero, (CIDRMask 32 0).1, (CIDRMask 32 0).2⟩, some s.ServerVIP, FwMark, 0, 0⟩

/-- The function `syncDefaultRoute`. -/
def syncDefaultRoute (s : Session) (oldDefaultRoute : Option Route) : M Bool :=
  match oldDefaultRoute with
  | some old =>
    if old.Gw == some s.ServerVIP then pure false
    else do netlink.RouteReplace (defaultRoute s); pure true
  | none => do netlink.RouteAdd (defaultRoute s); pure true

/-- The loop of `pruneUnknownRoutes`. -/
def pruneUnknownRoutes.loop : List Route → M Unit
  | [] => pure ()
  | r :: rs => do netlink.RouteDel r; pruneUnknownRoutes.loop rs

/-- The function `pruneUnknownRoutes`. -/
def pruneUnknownRoutes (unknownRoutes : List Route) : M Bool :=
  match unknownRoutes with
  | [] => pure false
  | _ => do pruneUnknownRoutes.loop unknownRoutes; pure true

/-- The method `Link.syncRoutingTables`. -/
def Link.syncRoutingTables (l : Link) (s : Session) : M Bool := do
  let rs ← wrapErr "could not get routing tables" getOurRoutingTable
  let cls := classifyRoutes s rs ⟨none, none, []⟩
  let didGatewayStatic ← wrapErr "could not add static route"
    (Link.syncGatewayStaticRoute l s cls.existingGatewayStaticRoute)
  let didDefault ← wrapErr "could not add default route"
    (syncDefaultRoute s cls.existingDefaultRoute)
  let didPrune ← wrapErr "could not prune unknown routes"
    (pruneUnknownRoutes cls.unknownRoutes)
  pure (didGatewayStatic || didDefault || didPrune)

/-- The rule that `syncBlackholeRule` adds. -/
def blackholeRule : Rule :=
  { Mark := FwMark, Table := FwMark, Invert := true, SuppressIfgroup := -1,
    SuppressPrefixlen := -1, Priority := -1, Mask := -1, Goto := -1, Flow := -1 }

/-- The loop of `syncBlackholeRule`; the result tells whether the loop left the
function through its `return`. -/
def syncBlackholeRule.loop : List Rule → M Bool
  | [] => pure false
  | r :: rs =>
    let hasMark := r.Mark == FwMark
    let hasTable := r.Table == FwMark
    let hasInvert := r.Invert == true
    if hasMark && hasTable && hasInvert then pure true
    else if hasMark || hasTable then do
      wrapErr "error deleting rule" (netlink.RuleDel r)
      syncBlackholeRule.loop rs
    else syncBlackholeRule.loop rs

/-- The function `syncBlackholeRule`. -/
def syncBlackholeRule (allRules : List Rule) : M Bool := do
  let returned ← syncBlackholeRule.loop allRules
  if returned then pure false
  else do
    wrapErr "error adding blackhole rule" (netlink.RuleAdd blackholeRule)
    pure true

/-- The constant `mainTable` of `syncLocalExemption`. -/
def mainTable : Int := 254

/-- The rule that `syncLocalExemption` adds. -/
def localExemptionRule : Rule :=
  { Table := mainTable, SuppressPrefixlen := 0, SuppressIfgroup := -1, Priority := -1,
    Mark := -1, Mask := -1, Goto := -1, Flow := -1, Invert := false }

/-- The function `syncLocalExemption`. -/
def syncLocalExemption (allRules : List Rule) : M Bool :=
  if allRules.any (fun r => r.Table == mainTable && r.SuppressPrefixlen == 0) then pure false
  else do netlink.RuleAdd localExemptionRule; pure true

/-- The function `syncRules`. -/
def syncRules : M Bool := do
  let allRules ← wrapErr "error getting routing rules" netlink.RuleList
  let didBlackholeRule ← wrapErr "error syncing blackhole rule" (syncBlackholeRule allRules)
  let didLocalExemption ← wrapErr "error syncing local exemption rule"
    (syncLocalExemption allRules)
  pure (didBlackholeRule || didLocalExemption)

/-- The method `Link.Sync`. -/
def Link.Sync (l : Link) (s : Session) : M Bool := do
  let didDev ← wrapErr "error syncing wg dev" (Link.syncDev l s)
  let didRoutingTables ← wrapErr "error syncing routing tables" (Link.syncRoutingTables l s)
  let didRules ← wrapErr "error syncing routing rules" syncRules
  pure (didDev || didRoutingTables || didRules)

/-! ## clean.go -/

/-- The loop of `flushRoutes`. -/
def flushRoutes.loop : List Route → M Unit
  | [] => pure ()
  | r :: rs => do netlink.RouteDel r; flushRoutes.loop rs

/-- The function `flushRoutes`. -/
def flushRoutes : M Unit := do
  let rs ← getOurRoutingTable
  flushRoutes.loop rs

/-- The loop of `flushRules`: at the first rule with one of the two signatures
the function returns what `RuleDel` returns. -/
def flushRules.loop : List Rule → M Unit
  | [] => pure ()
  | r :: rs =>
    let hasMark := r.Mark == FwMark
    let hasOurTable := r.Table == FwMark
    let hasInvert := r.Invert == true
    let hasMainTable := r.Table == 254
    let hasSuppressPrefixLen := r.SuppressPrefixlen == 0
    if (hasMark && hasOurTable && hasInvert) || (hasMainTable && hasSuppressPrefixLen) then
      netlink.RuleDel r
    else flushRules.loop rs

/-- The function `flushRules`. -/
def flushRules : M Unit := do
  let allRules ← wrapErr "error getting routing rules" netlink.RuleList
  flushRules.loop allRules

/-- The method `Link.Stop`. -/
def Link.Stop (_l : Link) : M Unit := do
  wrapErr "error flushing routes" flushRoutes
  wrapErr "error flushing rules" flushRules

/-- The method `Link.closeDev`. -/
def Link.closeDev (l : Link) : M Unit := do
  let r ← attempt (netlink.LinkByName l)
  match r with
  | .error err => if err.is .notExist then pure () else fail err
  | .ok nl => netlink.LinkDel nl

/-- The method `Link.Close`. -/
def Link.Close (l : Link) : M Unit := do
  wrapErr "error closing dev" (Link.closeDev l)
  Link.Stop l

/-! ## The provider, the clock and the context -/

/-- The call `session.GetServers`. -/
def session.GetServers : M (String → List Server) :=
  call .getServers fun w => (w.servers, w)

/-- The call `session.NewKey`. -/
def session.NewKey : M Key :=
  call .newKey fun w =>
    match w.keygen.2 with
    | none => (.ok w.keygen.1, w)
    | some e => (.error e, w)

/-- The method `SecretKey.PublicKey`. -/
def SecretKey.PublicKey (sk : Key) : M Key := fun w => ⟨.ok (w.pubOf sk), w, []⟩

/-- The call `Server.AddKey`: the next reply of the provider, a session together
with an error. -/
def Server.AddKey (_srv : Server) (_username _password : String) (_key : Key) :
    M (Session × Option Err) := fun w =>
  ⟨.ok (w.auth w.authCalls), { w with authCalls := w.authCalls + 1 }, [.addKey]⟩

/-- A `select` between `time.After(d)` and `ctx.Done()`; the result tells whether
the context was done first. -/
def selectAfterOrDone (d : Duration) : M Bool := fun w =>
  ⟨.ok (w.cancel w.waits), { w with waits := w.waits + 1 }, [.sleep d]⟩

/-- The call `time.Now`. -/
def timeNow : M Time := fun w => ⟨.ok (w.now w.nows), { w with nows := w.nows + 1 }, []⟩

/-- Read the controller state. -/
def getCS : M controllerState := fun w => ⟨.ok w.cs, w, []⟩

/-- Change the controller state. -/
def modifyCS (f : controllerState → controllerState) : M Unit :=
  modifyWorld fun w => { w with cs := f w.cs }

/-- A `defer d()` in a function whose body is `body`: when the body returns, with
or without an error, `d` runs in the world the body left and what `d` returns is
dropped.  A body that is still running (`none`) has not reached the deferred
call. -/
def deferred {α : Type} (d : M Unit) (body : M (Option α)) : M (Option α) := fun w =>
  match body w with
  | ⟨.ok none, w1, c1⟩ => ⟨.ok none, w1, c1⟩
  | ⟨v, w1, c1⟩ =>
    match d w1 with
    | ⟨_, w2, c2⟩ => ⟨v, w2, c1 ++ c2⟩

/-! ## controller.go -/

/-- The method `Controller.redact`. -/
def Controller.redact (c : Controller) : Controller :=
  let c1 := if c.Username != "" then { c with Username := "****" } else c
  if c1.Password != "" then { c1 with Password := "****" } else c1

/-- The method `Controller.getServer`. -/
def Controller.getServer (c : Controller) : M Server :=
  wrapErr "error getting server" do
    let rm ← session.GetServers
    match rm c.RegionDNS with
    | [] => fail (.msg "no servers for region")
    | s :: _ => pure s

/-- The method `Controller.start`. -/
def Controller.start (c : Controller) : M controllerState :=
  if c.RegionDNS == "" || c.Username == "" || c.Password == "" then
    fail (.invalidController c.redact)
  else do
    let c := if c.LinkName == "" then { c with LinkName := "wg0" } else c
    let srv ← c.getServer
    let sk ← wrapErr "could not generate session secret key" session.NewKey
    let pk ← SecretKey.PublicKey sk
    let l : Link := c.LinkName
    wrapErr "could not bring up interface" (Link.Start l sk)
    pure ⟨c, l, pk, srv, Session.zero, false, zeroTime⟩

/-- The constant `handshakeInterval`. -/
def handshakeInterval : Duration := 120 * Second

/-- The method `controllerState.keepaliveIntervalsPastHandshakeInterval`. -/
def controllerState.keepaliveIntervalsPastHandshakeInterval (s : controllerState) (n : Int)
    (now : Time) : Bool :=
  let d := handshakeInterval + n * KeepaliveInterval
  decide (s.lastHandshake + d < now)

/-- The second `switch` of `syncAndWatchOnce`: the watchdog tiers. -/
def controllerState.watchTiers (now : Time) : M Unit := do
  let s ← getCS
  if s.keepaliveIntervalsPastHandshakeInterval 10 now then fail .tunnelDead
  else if s.keepaliveIntervalsPastHandshakeInterval 5 now then do
    logPrintf "last handshake was long ago; readding key to server"
    fail .needsReAdd
  else if s.keepaliveIntervalsPastHandshakeInterval 2 now then
    logPrintf "two keepalive intervals have passed since the last handshake"
  else pure ()

/-- The method `controllerState.syncAndWatchOnce`. -/
def controllerState.syncAndWatchOnce : M Unit := do
  let s ← getCS
  let r ← attempt (Link.Sync s.l s.sn)
  match r with
  | .error err => do
    logPrintf "session failed to sync"
    fail (.wrap "failed to sync dev" err)
  | .ok did => do
    if did then logPrintf "synced device"
    let done ← selectAfterOrDone KeepaliveInterval
    if done then fail .canceled
    else do
      let t ← attempt (Link.LastHandshake s.l)
      let now ← timeNow
      match t with
      | .error err =>
        if err == .needsSync then logPrintf "couldn't find last handshake time"
        else controllerState.watchTiers now
      | .ok t => do
        modifyCS fun s => { s with lastHandshake := t }
        controllerState.watchTiers now

/-- The method `controllerState.syncLoop`, run for at most `fuel` passes.  The Go
loop returns only with an error, so `none` stands for a loop that is still
running when the fuel is used up. -/
def controllerState.syncLoop : Nat → M (Option Unit)
  | 0 => pure none
  | fuel + 1 => do
    controllerState.syncAndWatchOnce
    controllerState.syncLoop fuel

/-- The loop of `addKey`: `rem` attempts are left, `i` is the loop variable and
`err` the named result, which holds the error of the attempt before. -/
def controllerState.addKey.loop (prev : Session) : Nat → Nat → Option Err → M Unit
  | 0, _, err =>
    match err with
    | none => pure ()
    | some e => fail e
  | rem + 1, i, _ => do
    let s ← getCS
    let (sn, err) ← Server.AddKey s.srv s.ctlr.Username s.ctlr.Password s.pk
    modifyCS fun s => { s with sn := sn }
    match err with
    | none => pure ()
    | some e =>
      if s.isRefresh && e.is (.status StatusConflict) then do
        logPrintf "adding key after dead connection; key exists"
        modifyCS fun s => { s with sn := prev }
      else do
        let backoff : Duration := ((1 <<< i : Nat) : Int) * 25 * Millisecond
        logPrintf "got error; doing backoff"
        let done ← selectAfterOrDone backoff
        if done then fail .canceled
        else controllerState.addKey.loop prev rem (i + 1) (some e)

/-- The method `controllerState.addKey`, with `N = 5`. -/
def controllerState.addKey : M Unit := do
  let s ← getCS
  controllerState.addKey.loop s.sn 5 0 none

/-- The body of `addKeyOnceAndSyncLoop`, below its `defer` line. -/
def controllerState.addKeyOnceAndSyncLoop.body (fuel : Nat) : M (Option Unit) := do
  wrapErr "error adding key to server in region" controllerState.addKey
  modifyCS fun s => { s with isRefresh := true }
  controllerState.syncLoop fuel

/-- The method `controllerState.addKeyOnceAndSyncLoop`; `fuel` bounds the sync
loop. -/
def controllerState.addKeyOnceAndSyncLoop (fuel : Nat) : M (Option Unit) := do
  let s ← getCS
  deferred (Link.Stop s.l) (controllerState.addKeyOnceAndSyncLoop.body fuel)

/-- The loop of `runAddKeyLoop`, for at most `n` rounds of at most `fuel` sync
passes each. -/
def controllerState.runAddKeyLoop.loop (fuel : Nat) : Nat → M (Option Unit)
  | 0 => pure none
  | n + 1 => do
    let r ← attempt (controllerState.addKeyOnceAndSyncLoop fuel)
    match r with
    | .ok none => pure none
    | .ok (some _) => controllerState.runAddKeyLoop.loop fuel n
    | .error err =>
      if err.is .needsReAdd then controllerState.runAddKeyLoop.loop fuel n
      else fail err

/-- The method `controllerState.runAddKeyLoop`. -/
def controllerState.runAddKeyLoop (fuel : Nat) : M (Option Unit) := do
  let now ← timeNow
  modifyCS fun s => { s with lastHandshake := now }
  controllerState.runAddKeyLoop.loop fuel fuel

/-- The method `Controller.Run`. -/
def Controller.Run (c : Controller) (fuel : Nat) : M (Option Unit) := do
  let s ← c.start
  modifyCS fun _ => s
  deferred (Link.Close s.l) (controllerState.runAddKeyLoop fuel)

/-! ## Reading a trace -/

/-- Whether a fuelled run is still running: it came back with no result because
its fuel was used up. -/
def stillRunning {α : Type} : Except Err (Option α) → Bool
  | .ok none => true
  | _ => false

/-- The number of registration attempts in a trace. -/
def attempts (cs : List Call) : Nat := cs.count .addKey

/-- The backoff delays requested in a trace, in order. -/
def backoffs : List Call → List Duration
  | [] => []
  | .sleep d :: cs => d :: backoffs cs
  | _ :: cs => backoffs cs

/-- The calls of `k` failed registration attempts in a row, the first one made
with loop variable `i`: each is the attempt, a log line and a wait of
`25ms * 2^i`. -/
def failedAttempts : Nat → Nat → List Call
  | _, 0 => []
  | i, k + 1 =>
    [.addKey, .log "got error; doing backoff", .sleep (25 * Millisecond * 2 ^ i)]
      ++ failedAttempts (i + 1) k

/-- The world after one failed registration attempt and its wait: one reply and
one `select` are used up and the session of the reply is stored. -/
def World.afterFailure (w : World) : World :=
  { w with
    authCalls := w.authCalls + 1
    waits := w.waits + 1
    cs := { w.cs with sn := (w.auth w.authCalls).1 } }

/-- Whether `errors.Is(err, session.StatusError(http.StatusConflict))` holds for
the error of a reply. -/
def isConflict (reply : Session × Option Err) : Bool :=
  match reply.2 with
  | none => false
  | some e => e.is (.status StatusConflict)

/-- The n-th reply fails, and not in the way that opens the Conflict shortcut of
`addKey` in the world `w`. -/
def FailsPlainly (w : World) (n : Nat) : Prop :=
  ∃ e, (w.auth n).2 = some e ∧ (w.cs.isRefresh && e.is (.status StatusConflict)) = false

/-! ## Concrete inputs -/

/-- A session: server key 7, server 100:1337, gateway 200, peer IP 300, own
public key 9. -/
def exSession : Session :=
  ⟨"OK", 7, 1337, ⟨100, 1337, ""⟩, 100, 200, 300, "300/32", 9, []⟩

/-- A controller state right after `start`, for the interface `wg0`. -/
def exState : controllerState :=
  ⟨⟨"wg0", "region", "user", "secret"⟩, "wg0", 9, ⟨⟨1, 443, ""⟩, "cn"⟩, Session.zero, false, 0⟩

/-- A world right after `start`: the interface exists with index 3 and public key
9, has no peer and no address and is down; there are no routes and no rules; no
call is refused, the provider accepts every registration with `exSession`, the
context is never done and the clock advances 5s per reading. -/
def exWorld : World :=
  { dev := some ⟨3, false, [], 8, 9, 0, []⟩, routes := [], rules := [], ifindex := 4,
    fault := fun _ => false, servers := .ok fun _ => [⟨⟨1, 443, ""⟩, "cn"⟩],
    keygen := (8, none), pubOf := fun k => k + 1, auth := fun _ => (exSession, none),
    authCalls := 0, cancel := fun _ => false, waits := 0,
    now := fun n => 5 * Second * n, nows := 0, cs := exState }

/-- The world `exWorld` without the interface. -/
def exWorldNoDev : World :=
  { exWorld with dev := none }

/-- The world `exWorld` with two addresses on the interface that carry the peer
IP of `exSession`, one as a /24 and one as a /32. -/
def exWorldTwoAddrs : World :=
  { exWorld with dev := some ⟨3, false, [⟨300, 24, 32⟩, ⟨300, 32, 32⟩], 8, 9, 0, []⟩ }

/-- A policy rule with the local-exemption signature (table 254,
suppress-prefix-length 0) that also carries the mark 1337. -/
def markedExemptionRule : Rule :=
  { Table := 254, SuppressPrefixlen := 0, Mark := 1337, SuppressIfgroup := -1, Priority := 100,
    Mask := -1, Goto := -1, Flow := -1, Invert := false }

/-- The world `exWorld` with `markedExemptionRule` as its only policy rule. -/
def exWorldMarkedRule : World :=
  { exWorld with rules := [markedExemptionRule] }

/-- The peer that `applyDev` leaves on the device for `exSession`. -/
def exPeer : Peer :=
  ⟨7, 0, some ⟨100, 1337, ""⟩, KeepaliveInterval, zeroTime, [⟨IPv4zero, 0, 32⟩]⟩

/-- The two routes that `syncRoutingTables` leaves in table 1337 for `exSession`. -/
def exRoutes : List Route :=
  [⟨3, some ⟨200, 32, 32⟩, none, FwMark, SCOPE_LINK, 0⟩, ⟨0, none, some 200, FwMark, 0, 0⟩]

/-- The world that one `Sync` of `exSession` leaves when started in `exWorld`: peer,
address and up flag, the two routes and the two policy rules are in place. -/
def exWorldSynced : World :=
  { exWorld with
    dev := some ⟨3, true, [⟨300, 32, 32⟩], 8, 9, FwMark, [exPeer]⟩
    routes := exRoutes
    rules := [blackholeRule, localExemptionRule] }

/-- The address `10.0.0.0`. -/
def ip10 : IP := 167772160

/-- The world `exWorldSynced`, but the single peer allows `10.0.0.0/8` instead of
the full default range. -/
def exWorldNarrowPeer : World :=
  { exWorldSynced with
    dev := some ⟨3, true, [⟨300, 32, 32⟩], 8, 9, FwMark,
      [{ exPeer with AllowedIPs := [⟨ip10, 8, 32⟩] }]⟩ }

/-- A policy rule that matches the redirect signature in part: mark 1337, but
table 100 and not inverted. -/
def partialRule : Rule :=
  { Mark := 1337, Table := 100, Invert := false, SuppressIfgroup := -1, SuppressPrefixlen := -1,
    Priority := 200, Mask := -1, Goto := -1, Flow := -1 }

/-- The world `exWorld` with the canonical redirect rule followed by
`partialRule`. -/
def exWorldRuleAfter : World :=
  { exWorld with rules := [blackholeRule, partialRule] }

/-- The world `exWorldSynced` in which the kernel refuses to delete the
interface. -/
def exWorldNoDel : World :=
  { exWorldSynced with fault := fun c => c == Call.linkDel 3 }

/-- The world `exWorldSynced` with a last handshake at time 0 and a clock that
reads 150s. -/
def exWorldStale : World :=
  { exWorldSynced with
    dev := some ⟨3, true, [⟨300, 32, 32⟩], 8, 9, FwMark,
      [{ exPeer with LastHandshakeTime := 0 }]⟩
    now := fun _ => 150 * Second }

/-- A provider that refuses every registration with a transport error. -/
def exWorldAuthDown : World :=
  { exWorld with auth := fun _ => (Session.zero, some (Err.msg "connection refused")) }

/-- A provider that fails three times and accepts the fourth registration. -/
def exWorldAuthThree : World :=
  { exWorld with
    auth := fun n => if n < 3 then (Session.zero, some (Err.msg "connection refused"))
      else (exSession, none) }

/-- A controller that holds `exSession` and is refreshing, with a provider that
answers every registration with the status 409. -/
def exWorldConflict : World :=
  { exWorld with
    auth := fun _ => (Session.zero, some (Err.status StatusConflict))
    cs := { exState with sn := exSession, isRefresh := true } }

/-- The world `exWorld` with the peer IP of `exSession` on the interface as a /24
and no other address. -/
def exWorldWidePrefix : World :=
  { exWorld with dev := some ⟨3, false, [⟨300, 24, 32⟩], 8, 9, 0, []⟩ }

/-- The world `exWorldSynced`, but the one address of the interface is the peer IP
as a /24. -/
def exWorldSyncedWidePrefix : World :=
  { exWorldSynced with dev := some ⟨3, true, [⟨300, 24, 32⟩], 8, 9, FwMark, [exPeer]⟩ }

/-- A second default route of table 1337: gateway 201, metric 10. -/
def otherDefaultRoute : Route :=
  ⟨0, none, some 201, FwMark, 0, 10⟩

/-- The world `exWorldSynced` with `otherDefaultRoute` listed before the two
routes of the session. -/
def exWorldDefaultBefore : World :=
  { exWorldSynced with routes := otherDefaultRoute :: exRoutes }

/-- The world `exWorldSynced` with `otherDefaultRoute` listed after the two
routes of the session. -/
def exWorldDefaultAfter : World :=
  { exWorldSynced with routes := exRoutes ++ [otherDefaultRoute] }

/-- The world `exWorldSynced` with `partialRule` listed before the two rules of
the session. -/
def exWorldPartialFirst : World :=
  { exWorldSynced with rules := [partialRule, blackholeRule, localExemptionRule] }

/-! ## Running code in a world -/

@[simp] theorem pure_run {α : Type} (a : α) (w : World) : (pure a : M α) w = ⟨.ok a, w, []⟩ := rfl

@[simp] theorem Mpure_run {α : Type} (a : α) (w : World) : M.pure a w = ⟨.ok a, w, []⟩ := rfl

@[simp] theorem bind_run {α β : Type} (m : M α) (f : α → M β) (w : World) :
    (m >>= f) w = M.bind m f w := rfl

@[simp] theorem fail_run {α : Type} (e : Err) (w : World) :
    (fail e : M α) w = ⟨.error e, w, []⟩ := rfl

theorem bind_val_error {α β : Type} (m : M α) (f : α → M β) (w : World) (e : Err)
    (h : (m w).val = .error e) :
    (M.bind m f w).val = .error e ∧ (M.bind m f w).world = (m w).world ∧
      (M.bind m f w).calls = (m w).calls := by
  unfold M.bind
  rcases hm : m w with ⟨v, w1, c1⟩
  rw [hm] at h
  cases v with
  | error e1 => simp at h; subst h; simp
  | ok a => simp at h

theorem bind_val_ok {α β : Type} (m : M α) (f : α → M β) (w : World) (a : α)
    (h : (m w).val = .ok a) :
    (M.bind m f w).val = (f a (m w).world).val ∧
      (M.bind m f w).world = (f a (m w).world).world ∧
      (M.bind m f w).calls = (m w).calls ++ (f a (m w).world).calls := by
  unfold M.bind
  rcases hm : m w with ⟨v, w1, c1⟩
  rw [hm] at h
  cases v with
  | error e1 => simp at h
  | ok a1 =>
    simp at h
    subst h
    rcases hf : f a1 w1 with ⟨v2, w2, c2⟩
    simp [hf]

theorem attempt_run {α : Type} (m : M α) (w : World) :
    attempt m w = ⟨.ok (m w).val, (m w).world, (m w).calls⟩ := by
  unfold attempt
  rcases m w with ⟨v, w1, c1⟩
  rfl

theorem bind_attempt_calls {α β : Type} (m : M α) (f : Except Err α → M β) (w : World) :
    (M.bind (attempt m) f w).calls = (m w).calls ++ (f (m w).val (m w).world).calls := by
  have h1 := bind_val_ok (attempt m) f w (m w).val (by rw [attempt_run])
  rw [attempt_run] at h1
  exact h1.2.2

theorem wrapErr_ok {α : Type} (text : String) (m : M α) (w : World) (a : α)
    (h : (m w).val = .ok a) :
    (wrapErr text m w).val = .ok a ∧ (wrapErr text m w).world = (m w).world ∧
      (wrapErr text m w).calls = (m w).calls := by
  unfold wrapErr
  rcases hm : m w with ⟨v, w1, c1⟩
  rw [hm] at h
  cases v with
  | error e1 => simp at h
  | ok a1 => simp at h; subst h; simp

theorem wrapErr_error {α : Type} (text : String) (m : M α) (w : World) (e : Err)
    (h : (m w).val = .error e) :
    (wrapErr text m w).val = .error (.wrap text e) ∧ (wrapErr text m w).world = (m w).world ∧
      (wrapErr text m w).calls = (m w).calls := by
  unfold wrapErr
  rcases hm : m w with ⟨v, w1, c1⟩
  rw [hm] at h
  cases v with
  | error e1 => simp at h; subst h; simp
  | ok a1 => simp at h

theorem wrapErr_calls {α : Type} (text : String) (m : M α) (w : World) :
    (wrapErr text m w).calls = (m w).calls := by
  unfold wrapErr
  rcases hm : m w with ⟨v, w1, c1⟩
  cases v <;> rfl

theorem bind_calls_prefix {α β : Type} (m : M α) (f : α → M β) (w : World) :
    ∃ t, (M.bind m f w).calls = (m w).calls ++ t := by
  cases h : (m w).val with
  | error e => exact ⟨[], by rw [(bind_val_error m f w e h).2.2]; simp⟩
  | ok a => exact ⟨_, (bind_val_ok m f w a h).2.2⟩

theorem deferred_run {α : Type} (d : M Unit) (body : M (Option α)) (w : World) :
    (deferred d body w).val = (body w).val ∧
      (deferred d body w).calls = (body w).calls ++
        (if stillRunning (body w).val then [] else (d (body w).world).calls) ∧
      (deferred d body w).world =
        (if stillRunning (body w).val then (body w).world else (d (body w).world).world) := by
  unfold deferred
  rcases hb : body w with ⟨v, w1, c1⟩
  cases v with
  | error e =>
    rcases hd : d w1 with ⟨v2, w2, c2⟩
    simp [stillRunning, hd]
  | ok a =>
    cases a with
    | none => simp [stillRunning]
    | some x =>
      rcases hd : d w1 with ⟨v2, w2, c2⟩
      simp [stillRunning, hd]

/-! ## Start -/

/-- C1: a controller whose `RegionDNS`, `Username` or `Password` is empty is
rejected by `start` with the invalid-controller error; no call is issued (not to
the directory, not to the key generator, not to the kernel) and the world is left
as it was. -/
theorem start_empty_field_no_call (c : Controller) (w : World)
    (h : c.RegionDNS = "" ∨ c.Username = "" ∨ c.Password = "") :
    (c.start w).val = .error (.invalidController c.redact) ∧
      (c.start w).calls = [] ∧ (c.start w).world = w := by
  have hb : (c.RegionDNS == "" || c.Username == "" || c.Password == "") = true := by
    rcases h with h | h | h <;> simp [h]
  unfold Controller.start
  rw [if_pos hb]
  exact ⟨rfl, rfl, rfl⟩

/-- C1 at the controller with an empty `RegionDNS`, in `exWorld`. -/
theorem start_empty_field_no_call_witness :
    ((⟨"wg0", "", "user", "secret"⟩ : Controller).RegionDNS = "" ∨
        (⟨"wg0", "", "user", "secret"⟩ : Controller).Username = "" ∨
        (⟨"wg0", "", "user", "secret"⟩ : Controller).Password = "") ∧
      (Controller.start ⟨"wg0", "", "user", "secret"⟩ exWorld).val =
        .error (.invalidController ⟨"wg0", "", "****", "****"⟩) ∧
      (Controller.start ⟨"wg0", "", "user", "secret"⟩ exWorld).calls = [] :=
  ⟨Or.inl rfl,
    (start_empty_field_no_call ⟨"wg0", "", "user", "secret"⟩ exWorld (Or.inl rfl)).1,
    (start_empty_field_no_call ⟨"wg0", "", "user", "secret"⟩ exWorld (Or.inl rfl)).2.1⟩

/-! ## The watchdog tiers -/

theorem add_lt_iff_lt_sub (a b d : Int) : (a + d < b) ↔ (d < b - a) := by omega

/-- The three thresholds, built from the base of 120s and the interval of 5s. -/
theorem watchdog_thresholds :
    handshakeInterval + 10 * KeepaliveInterval = 170 * Second ∧
      handshakeInterval + 5 * KeepaliveInterval = 145 * Second ∧
      handshakeInterval + 2 * KeepaliveInterval = 130 * Second := by
  simp [handshakeInterval, KeepaliveInterval, Second, Millisecond]

/-- C2, as the code has it: with `elapsed = now - lastHandshake`, exactly one tier
acts, most severe first, and every threshold is strict.  More than 170s: the
fatal tunnel-dead error, nothing logged.  Otherwise more than 145s:
`errNeedsReAdd`, after one log line.  Otherwise more than 130s: one warning is
logged and nil is returned.  Otherwise nil is returned and nothing is logged.
The world is not touched. -/
theorem watchTiers_strict_tiers (w : World) (now : Time) :
    (controllerState.watchTiers now w).val =
        (if now - w.cs.lastHandshake > 170 * Second then .error .tunnelDead
         else if now - w.cs.lastHandshake > 145 * Second then .error .needsReAdd
         else .ok ()) ∧
      (controllerState.watchTiers now w).calls =
        (if now - w.cs.lastHandshake > 170 * Second then []
         else if now - w.cs.lastHandshake > 145 * Second then
           [.log "last handshake was long ago; readding key to server"]
         else if now - w.cs.lastHandshake > 130 * Second then
           [.log "two keepalive intervals have passed since the last handshake"]
         else []) ∧
      (controllerState.watchTiers now w).world = w := by
  simp only [controllerState.watchTiers, controllerState.keepaliveIntervalsPastHandshakeInterval,
    bind, pure, M.bind, M.pure, getCS, fail, logPrintf, handshakeInterval, KeepaliveInterval,
    Second, Millisecond, add_lt_iff_lt_sub, gt_iff_lt]
  norm_num
  split_ifs <;>
    first
    | (simp [fail, logPrintf, M.bind, M.pure]; done)
    | (exfalso; simp only [Time, Duration] at *; omega)

/-- C2 fails as stated: with the last handshake at 0 and the clock at exactly
170s, elapsed is at least base + 10 intervals, yet the code does not return the
fatal error; it returns `errNeedsReAdd`. -/
theorem watchTiers_at_170s_not_fatal :
    170 * Second - exWorld.cs.lastHandshake ≥ handshakeInterval + 10 * KeepaliveInterval ∧
      (controllerState.watchTiers (170 * Second) exWorld).val ≠ .error .tunnelDead ∧
      (controllerState.watchTiers (170 * Second) exWorld).val = .error .needsReAdd := by
  decide!

/-! ## Sync run twice -/

/-- C3 at two inputs.  With the peer IP on the interface twice (as a /24 and as a
/32), a first `Sync` succeeds and reports a change, and so does the second one on
the state the first left, although that state is the same.  With a rule of the
local-exemption signature that carries the mark 1337, the first `Sync` deletes it
in the redirect step, finds it in the list read before and adds nothing; the
second `Sync` adds the local-exemption rule and reports a change. -/
theorem Sync_second_pass_changed :
    (Link.Sync "wg0" exSession exWorldTwoAddrs).val = .ok true ∧
      (Link.Sync "wg0" exSession (Link.Sync "wg0" exSession exWorldTwoAddrs).world).val
        = .ok true ∧
      (Link.Sync "wg0" exSession (Link.Sync "wg0" exSession exWorldTwoAddrs).world).world.dev
        = (Link.Sync "wg0" exSession exWorldTwoAddrs).world.dev ∧
      (Link.Sync "wg0" exSession exWorldMarkedRule).val = .ok true ∧
      (Link.Sync "wg0" exSession exWorldMarkedRule).world.rules = [blackholeRule] ∧
      (Link.Sync "wg0" exSession (Link.Sync "wg0" exSession exWorldMarkedRule).world).val
        = .ok true := by
  decide!

/-! ## Stop -/

/-- C4 at a failing input: in the state a `Sync` leaves, with both policy rules
present and no call refused, `Stop` returns nil, empties table 1337 and leaves the
interface as it was, but it deletes only the first of the two rules: the
local-exemption rule is still there.  With the two rules in the other order the
redirect rule is the one that stays. -/
theorem Stop_deletes_one_rule :
    (Link.Stop "wg0" exWorldSynced).val = .ok () ∧
      (Link.Stop "wg0" exWorldSynced).world.routes = [] ∧
      (Link.Stop "wg0" exWorldSynced).world.dev = exWorldSynced.dev ∧
      (Link.Stop "wg0" exWorldSynced).world.rules = [localExemptionRule] ∧
      (Link.Stop "wg0" { exWorldSynced with rules := [localExemptionRule, blackholeRule] }).val
        = .ok () ∧
      (Link.Stop "wg0"
          { exWorldSynced with rules := [localExemptionRule, blackholeRule] }).world.rules
        = [blackholeRule] := by
  decide!

/-! ## Close -/

theorem closeDev_calls (l : Link) (w : World) :
    (Link.closeDev l w).calls = [.linkByName l] ∨
      ∃ i, (Link.closeDev l w).calls = [.linkByName l, .linkDel i] := by
  simp only [Link.closeDev, bind_run, M.bind, attempt, netlink.LinkByName, call, netlink.LinkDel]
  by_cases hf : w.fault (.linkByName l) = true
  · simp [hf, Err.is]
  · simp only [hf]
    cases hd : w.dev with
    | none => simp [Err.is]
    | some d =>
      right
      refine ⟨d.Index, ?_⟩
      by_cases hg : w.fault (.linkDel d.Index) = true <;> simp [hg, call]

theorem Close_eq (l : Link) :
    Link.Close l = M.bind (wrapErr "error closing dev" (Link.closeDev l)) (fun _ => Link.Stop l) :=
  rfl

theorem closeDev_lookup_refused (l : Link) (w : World)
    (hf : w.fault (.linkByName l) = true) :
    Link.closeDev l w = ⟨.error (.sys (.linkByName l)), w, [.linkByName l]⟩ := by
  simp [Link.closeDev, M.bind, attempt, netlink.LinkByName, call, hf, Err.is]

theorem closeDev_delete_refused (l : Link) (w : World) (d : Dev)
    (hf : w.fault (.linkByName l) = false) (hd : w.dev = some d)
    (hg : w.fault (.linkDel d.Index) = true) :
    Link.closeDev l w = ⟨.error (.sys (.linkDel d.Index)), w, [.linkByName l, .linkDel d.Index]⟩ := by
  simp [Link.closeDev, M.bind, attempt, netlink.LinkByName, netlink.LinkDel, call, hf, hd, hg]

theorem closeDev_deleted (l : Link) (w : World) (d : Dev)
    (hf : w.fault (.linkByName l) = false) (hd : w.dev = some d)
    (hg : w.fault (.linkDel d.Index) = false) :
    Link.closeDev l w = ⟨.ok (), { w with dev := none }, [.linkByName l, .linkDel d.Index]⟩ := by
  simp [Link.closeDev, M.bind, attempt, netlink.LinkByName, netlink.LinkDel, call, hf, hd, hg]

/-- What `closeDev` does when the link is missing: the `LinkNotFoundError` of the
lookup is not `os.ErrNotExist`, so it is returned, and `Close` returns it wrapped
after the lookup alone. -/
theorem Close_missing_link :
    (Link.closeDev "wg0" exWorldNoDev).val = .error .linkNotFound ∧
      (Link.Close "wg0" exWorldNoDev).val
        = .error (.wrap "error closing dev" .linkNotFound) ∧
      (Link.Close "wg0" exWorldNoDev).calls = [.linkByName "wg0"] := by
  decide!

/-- C5, as the code has it: `Close` first runs `closeDev` and runs `Stop` only
when `closeDev` returned nil.  `closeDev` looks the link up and, when the lookup
finds it, issues the device deletion: if the lookup or the deletion is refused,
that error comes back, nothing has changed, `Close` returns it wrapped and
issues no further call, so no route or rule is touched; if the deletion goes
through, the interface is gone, `Stop` runs next in that world, its calls follow
those of `closeDev`, and `Close` returns what `Stop` returns. -/
theorem Close_deletes_device_first (l : Link) (w : World) :
    ((Link.closeDev l w).calls = [.linkByName l] ∨
        ∃ i, (Link.closeDev l w).calls = [.linkByName l, .linkDel i]) ∧
      (∀ e, (Link.closeDev l w).val = .error e →
        (Link.Close l w).val = .error (.wrap "error closing dev" e) ∧
          (Link.Close l w).calls = (Link.closeDev l w).calls ∧
          (Link.Close l w).world = (Link.closeDev l w).world) ∧
      ((Link.closeDev l w).val = .ok () →
        (Link.Close l w).val = (Link.Stop l (Link.closeDev l w).world).val ∧
          (Link.Close l w).calls =
            (Link.closeDev l w).calls ++ (Link.Stop l (Link.closeDev l w).world).calls ∧
          (Link.Close l w).world = (Link.Stop l (Link.closeDev l w).world).world) ∧
      (w.fault (.linkByName l) = true →
        (Link.Close l w).val = .error (.wrap "error closing dev" (.sys (.linkByName l))) ∧
          (Link.Close l w).calls = [.linkByName l] ∧ (Link.Close l w).world = w) ∧
      (∀ d, w.fault (.linkByName l) = false → w.dev = some d →
        (Link.closeDev l w).calls = [.linkByName l, .linkDel d.Index] ∧
          (w.fault (.linkDel d.Index) = true →
            (Link.Close l w).val
                = .error (.wrap "error closing dev" (.sys (.linkDel d.Index))) ∧
              (Link.Close l w).calls = [.linkByName l, .linkDel d.Index] ∧
              (Link.Close l w).world = w) ∧
          (w.fault (.linkDel d.Index) = false →
            (Link.closeDev l w).val = .ok () ∧
              (Link.closeDev l w).world = { w with dev := none } ∧
              (Link.Close l w).val = (Link.Stop l { w with dev := none }).val ∧
              (Link.Close l w).calls = [.linkByName l, .linkDel d.Index] ++
                (Link.Stop l { w with dev := none }).calls ∧
              (Link.Close l w).world = (Link.Stop l { w with dev := none }).world)) := by
  have hok : (Link.closeDev l w).val = .ok () →
      (Link.Close l w).val = (Link.Stop l (Link.closeDev l w).world).val ∧
        (Link.Close l w).calls =
          (Link.closeDev l w).calls ++ (Link.Stop l (Link.closeDev l w).world).calls ∧
        (Link.Close l w).world = (Link.Stop l (Link.closeDev l w).world).world := by
    intro he
    have h1 := wrapErr_ok "error closing dev" (Link.closeDev l) w () he
    have h2 := bind_val_ok (wrapErr "error closing dev" (Link.closeDev l))
      (fun _ => Link.Stop l) w _ h1.1
    rw [h1.2.1, h1.2.2] at h2
    rw [Close_eq]
    exact ⟨h2.1, h2.2.2, h2.2.1⟩
  have herr : ∀ e, (Link.closeDev l w).val = .error e →
      (Link.Close l w).val = .error (.wrap "error closing dev" e) ∧
        (Link.Close l w).calls = (Link.closeDev l w).calls ∧
        (Link.Close l w).world = (Link.closeDev l w).world := by
    intro e he
    have h1 := wrapErr_error "error closing dev" (Link.closeDev l) w e he
    have h2 := bind_val_error (wrapErr "error closing dev" (Link.closeDev l))
      (fun _ => Link.Stop l) w _ h1.1
    rw [h1.2.1, h1.2.2] at h2
    rw [Close_eq]
    exact ⟨h2.1, h2.2.2, h2.2.1⟩
  refine ⟨closeDev_calls l w, herr, hok, ?_, ?_⟩
  · intro hf
    have h0 := closeDev_lookup_refused l w hf
    have h1 := herr (.sys (.linkByName l)) (by rw [h0])
    rw [h0] at h1
    exact h1
  · intro d hf hd
    refine ⟨?_, ?_, ?_⟩
    · by_cases hg : w.fault (.linkDel d.Index) = true
      · rw [closeDev_delete_refused l w d hf hd hg]
      · rw [closeDev_deleted l w d hf hd (by simpa using hg)]
    · intro hg
      have h0 := closeDev_delete_refused l w d hf hd hg
      have h1 := herr (.sys (.linkDel d.Index)) (by rw [h0])
      rw [h0] at h1
      exact h1
    · intro hg
      have h0 := closeDev_deleted l w d hf hd hg
      have h1 := hok (by rw [h0])
      rw [h0] at h1
      exact ⟨by rw [h0], by rw [h0], h1.1, h1.2.1, h1.2.2⟩

/-- C5 in the world a `Sync` leaves, with no call refused: the interface is
looked up and deleted, then `Stop` lists and deletes the two routes and lists and
deletes a rule; the interface and the routes are gone.  And in the same world
with the deletion refused: the error comes back after two calls and the world
is as before. -/
theorem Close_deletes_device_first_witness :
    (exWorldSynced.fault (.linkByName "wg0") = false ∧
        exWorldSynced.dev = some ⟨3, true, [⟨300, 32, 32⟩], 8, 9, FwMark, [exPeer]⟩ ∧
        exWorldSynced.fault (.linkDel 3) = false) ∧
      ((Link.closeDev "wg0" exWorldSynced).val = .ok () ∧
        (Link.closeDev "wg0" exWorldSynced).world = { exWorldSynced with dev := none } ∧
        (Link.Close "wg0" exWorldSynced).val
          = (Link.Stop "wg0" { exWorldSynced with dev := none }).val ∧
        (Link.Close "wg0" exWorldSynced).calls = [.linkByName "wg0", .linkDel 3] ++
          (Link.Stop "wg0" { exWorldSynced with dev := none }).calls ∧
        (Link.Close "wg0" exWorldSynced).world
          = (Link.Stop "wg0" { exWorldSynced with dev := none }).world) ∧
      ((Link.Close "wg0" exWorldSynced).calls.length = 7 ∧
        (Link.Close "wg0" exWorldSynced).world.dev = none ∧
        (Link.Close "wg0" exWorldSynced).world.routes = []) ∧
      (exWorldNoDel.fault (.linkDel 3) = true ∧
        (Link.Close "wg0" exWorldNoDel).val
          = .error (.wrap "error closing dev" (.sys (.linkDel 3))) ∧
        (Link.Close "wg0" exWorldNoDel).calls = [.linkByName "wg0", .linkDel 3] ∧
        (Link.Close "wg0" exWorldNoDel).world = exWorldNoDel) :=
  ⟨⟨rfl, rfl, rfl⟩,
    ((Close_deletes_device_first "wg0" exWorldSynced).2.2.2.2
      ⟨3, true, [⟨300, 32, 32⟩], 8, 9, FwMark, [exPeer]⟩ rfl rfl).2.2 rfl,
    by decide!,
    ⟨rfl, ((Close_deletes_device_first "wg0" exWorldNoDel).2.2.2.2
      ⟨3, true, [⟨300, 32, 32⟩], 8, 9, FwMark, [exPeer]⟩ rfl rfl).2.1 rfl⟩⟩

/-- C5 fails as stated: when the kernel refuses to delete the interface, `Close`
returns that error after the lookup and the deletion call alone; no route or rule
call is issued and the routes and rules are all still there.  When nothing is
refused, the deletion call comes before the first route call. -/
theorem Close_device_first_no_teardown :
    (Link.Close "wg0" exWorldNoDel).val
        = .error (.wrap "error closing dev" (.sys (.linkDel 3))) ∧
      (Link.Close "wg0" exWorldNoDel).calls = [.linkByName "wg0", .linkDel 3] ∧
      (Link.Close "wg0" exWorldNoDel).world.routes = exRoutes ∧
      (Link.Close "wg0" exWorldNoDel).world.rules = [blackholeRule, localExemptionRule] ∧
      (Link.Close "wg0" exWorldSynced).calls.take 3
        = [.linkByName "wg0", .linkDel 3, .routeList FwMark] := by
  decide!

/-! ## The registration loop -/

theorem backoff_eq (i : Nat) :
    ((1 <<< i : Nat) : Int) * 25 * Millisecond = 25 * Millisecond * 2 ^ i := by
  rw [Nat.one_shiftLeft]
  push_cast
  ring

theorem addKey_loop_fail (prev : Session) (rem i : Nat) (err : Option Err) (w : World) (e : Err)
    (h1 : (w.auth w.authCalls).2 = some e)
    (h2 : (w.cs.isRefresh && e.is (.status StatusConflict)) = false)
    (h3 : w.cancel w.waits = false) :
    controllerState.addKey.loop prev (rem + 1) i err w =
      ⟨(controllerState.addKey.loop prev rem (i + 1) (some e) w.afterFailure).val,
        (controllerState.addKey.loop prev rem (i + 1) (some e) w.afterFailure).world,
        [.addKey, .log "got error; doing backoff", .sleep (25 * Millisecond * 2 ^ i)] ++
          (controllerState.addKey.loop prev rem (i + 1) (some e) w.afterFailure).calls⟩ := by
  have h2' : ¬ (w.cs.isRefresh = true ∧ e.is (.status StatusConflict) = true) := by
    simpa using h2
  rw [controllerState.addKey.loop]
  simp [M.bind, getCS, Server.AddKey, modifyCS, modifyWorld, logPrintf,
    selectAfterOrDone, h1, h2', h3, backoff_eq, World.afterFailure]

theorem addKey_loop_ok (prev : Session) (rem i : Nat) (err : Option Err) (w : World)
    (h1 : (w.auth w.authCalls).2 = none) :
    controllerState.addKey.loop prev (rem + 1) i err w =
      ⟨.ok (), { w with authCalls := w.authCalls + 1, cs := { w.cs with sn := (w.auth w.authCalls).1 } },
        [.addKey]⟩ := by
  rw [controllerState.addKey.loop]
  simp [M.bind, getCS, Server.AddKey, modifyCS, modifyWorld, h1]

theorem addKey_loop_conflict (prev : Session) (rem i : Nat) (err : Option Err) (w : World)
    (e : Err) (h1 : (w.auth w.authCalls).2 = some e) (hr : w.cs.isRefresh = true)
    (hc : e.is (.status StatusConflict) = true) :
    controllerState.addKey.loop prev (rem + 1) i err w =
      ⟨.ok (), { w with authCalls := w.authCalls + 1, cs := { w.cs with sn := prev } },
        [.addKey, .log "adding key after dead connection; key exists"]⟩ := by
  rw [controllerState.addKey.loop]
  simp [M.bind, getCS, Server.AddKey, modifyCS, modifyWorld, logPrintf, h1, hr, hc]

theorem addKey_loop_cancel (prev : Session) (rem i : Nat) (err : Option Err) (w : World)
    (e : Err) (h1 : (w.auth w.authCalls).2 = some e)
    (h2 : (w.cs.isRefresh && e.is (.status StatusConflict)) = false)
    (h3 : w.cancel w.waits = true) :
    controllerState.addKey.loop prev (rem + 1) i err w =
      ⟨.error .canceled, w.afterFailure,
        [.addKey, .log "got error; doing backoff", .sleep (25 * Millisecond * 2 ^ i)]⟩ := by
  have h2' : ¬ (w.cs.isRefresh = true ∧ e.is (.status StatusConflict) = true) := by
    simpa using h2
  rw [controllerState.addKey.loop]
  simp [M.bind, getCS, Server.AddKey, modifyCS, modifyWorld, logPrintf,
    selectAfterOrDone, h1, h2', h3, backoff_eq, World.afterFailure]

theorem addKey_loop_first_call (prev : Session) (rem i : Nat) (err : Option Err) (w : World) :
    ∃ rest, (controllerState.addKey.loop prev (rem + 1) i err w).calls = .addKey :: rest := by
  cases h1 : (w.auth w.authCalls).2 with
  | none => rw [addKey_loop_ok prev rem i err w h1]; exact ⟨_, rfl⟩
  | some e =>
    cases h2 : (w.cs.isRefresh && e.is (.status StatusConflict)) with
    | true =>
      simp at h2
      rw [addKey_loop_conflict prev rem i err w e h1 h2.1 h2.2]
      exact ⟨_, rfl⟩
    | false =>
      cases h3 : w.cancel w.waits with
      | true => rw [addKey_loop_cancel prev rem i err w e h1 h2 h3]; exact ⟨_, rfl⟩
      | false => rw [addKey_loop_fail prev rem i err w e h1 h2 h3]; exact ⟨_, rfl⟩

theorem addKey_loop_attempts_le (prev : Session) :
    ∀ (rem i : Nat) (err : Option Err) (w : World),
      attempts (controllerState.addKey.loop prev rem i err w).calls ≤ rem := by
  intro rem
  induction rem with
  | zero =>
    intro i err w
    cases err <;> simp [controllerState.addKey.loop, attempts]
  | succ rem ih =>
    intro i err w
    cases h1 : (w.auth w.authCalls).2 with
    | none => rw [addKey_loop_ok prev rem i err w h1]; simp [attempts]
    | some e =>
      cases h2 : (w.cs.isRefresh && e.is (.status StatusConflict)) with
      | true =>
        simp at h2
        rw [addKey_loop_conflict prev rem i err w e h1 h2.1 h2.2]
        simp [attempts]
      | false =>
        cases h3 : w.cancel w.waits with
        | true => rw [addKey_loop_cancel prev rem i err w e h1 h2 h3]; simp [attempts]
        | false =>
          rw [addKey_loop_fail prev rem i err w e h1 h2 h3]
          have := ih (i + 1) (some e) w.afterFailure
          simp [attempts] at this ⊢
          exact this

theorem failsPlainly_shift (w : World) (k : Nat)
    (h : ∀ j, j < k + 1 → FailsPlainly w (w.authCalls + j)) :
    ∀ j, j < k → FailsPlainly w.afterFailure (w.afterFailure.authCalls + j) := by
  intro j hj
  obtain ⟨e, h1, h2⟩ := h (j + 1) (by omega)
  refine ⟨e, ?_, h2⟩
  show (w.auth (w.authCalls + 1 + j)).2 = some e
  rw [show w.authCalls + 1 + j = w.authCalls + (j + 1) by omega]
  exact h1

theorem cancel_shift (w : World) (k : Nat)
    (h : ∀ j, j < k + 1 → w.cancel (w.waits + j) = false) :
    ∀ j, j < k → w.afterFailure.cancel (w.afterFailure.waits + j) = false := by
  intro j hj
  show w.cancel (w.waits + 1 + j) = false
  rw [show w.waits + 1 + j = w.waits + (j + 1) by omega]
  exact h (j + 1) (by omega)

theorem addKey_loop_succeeds (prev : Session) :
    ∀ (k rem i : Nat) (err : Option Err) (w : World), k < rem →
      (∀ j, j < k → FailsPlainly w (w.authCalls + j)) →
      (∀ j, j < k → w.cancel (w.waits + j) = false) →
      (w.auth (w.authCalls + k)).2 = none →
      (controllerState.addKey.loop prev rem i err w).val = .ok () ∧
        (controllerState.addKey.loop prev rem i err w).calls = failedAttempts i k ++ [.addKey] ∧
        (controllerState.addKey.loop prev rem i err w).world.cs.sn
          = (w.auth (w.authCalls + k)).1 ∧
        (controllerState.addKey.loop prev rem i err w).world.authCalls = w.authCalls + k + 1 ∧
        (controllerState.addKey.loop prev rem i err w).world.waits = w.waits + k := by
  intro k
  induction k with
  | zero =>
    intro rem i err w hk _ _ hok
    obtain ⟨rem, rfl⟩ : ∃ r, rem = r + 1 := ⟨rem - 1, by omega⟩
    rw [addKey_loop_ok prev rem i err w (by simpa using hok)]
    simp [failedAttempts]
  | succ k ih =>
    intro rem i err w hk hfail hcancel hok
    obtain ⟨rem, rfl⟩ : ∃ r, rem = r + 1 := ⟨rem - 1, by omega⟩
    obtain ⟨e, h1, h2⟩ := hfail 0 (by omega)
    have h3 := hcancel 0 (by omega)
    simp only [Nat.add_zero] at h1 h3
    rw [addKey_loop_fail prev rem i err w e h1 h2 h3]
    have hw : w.afterFailure.auth = w.auth := rfl
    have hc : w.afterFailure.authCalls = w.authCalls + 1 := rfl
    have := ih rem (i + 1) (some e) w.afterFailure (by omega)
      (by
        intro j hj
        obtain ⟨e', h1', h2'⟩ := hfail (j + 1) (by omega)
        refine ⟨e', ?_, h2'⟩
        show (w.auth (w.authCalls + 1 + j)).2 = some e'
        rw [show w.authCalls + 1 + j = w.authCalls + (j + 1) by omega]
        exact h1')
      (by
        intro j hj
        show w.cancel (w.waits + 1 + j) = false
        rw [show w.waits + 1 + j = w.waits + (j + 1) by omega]
        exact hcancel (j + 1) (by omega))
      (by
        show (w.auth (w.authCalls + 1 + k)).2 = none
        rw [show w.authCalls + 1 + k = w.authCalls + (k + 1) by omega]
        exact hok)
    obtain ⟨a, b, c, d, f⟩ := this
    refine ⟨a, ?_, ?_, ?_, ?_⟩
    · simp [failedAttempts, b]
    · rw [c]
      show (w.auth (w.authCalls + 1 + k)).1 = _
      rw [show w.authCalls + 1 + k = w.authCalls + (k + 1) by omega]
    · rw [d]; show w.authCalls + 1 + k + 1 = _; omega
    · rw [f]; show w.waits + 1 + k = _; omega

theorem addKey_loop_conflict_at (prev : Session) :
    ∀ (k rem i : Nat) (err : Option Err) (w : World), k < rem →
      (∀ j, j < k → FailsPlainly w (w.authCalls + j)) →
      (∀ j, j < k → w.cancel (w.waits + j) = false) →
      w.cs.isRefresh = true → isConflict (w.auth (w.authCalls + k)) = true →
      (controllerState.addKey.loop prev rem i err w).val = .ok () ∧
        (controllerState.addKey.loop prev rem i err w).calls = failedAttempts i k ++
          [.addKey, .log "adding key after dead connection; key exists"] ∧
        (controllerState.addKey.loop prev rem i err w).world.cs.sn = prev ∧
        (controllerState.addKey.loop prev rem i err w).world.authCalls = w.authCalls + k + 1 ∧
        (controllerState.addKey.loop prev rem i err w).world.waits = w.waits + k := by
  intro k
  induction k with
  | zero =>
    intro rem i err w hk _ _ hr hc
    obtain ⟨rem, rfl⟩ : ∃ r, rem = r + 1 := ⟨rem - 1, by omega⟩
    simp only [Nat.add_zero, isConflict] at hc
    cases h1 : (w.auth w.authCalls).2 with
    | none => rw [h1] at hc; simp at hc
    | some e =>
      rw [h1] at hc
      rw [addKey_loop_conflict prev rem i err w e h1 hr hc]
      simp [failedAttempts]
  | succ k ih =>
    intro rem i err w hk hfail hcancel hr hc
    obtain ⟨rem, rfl⟩ : ∃ r, rem = r + 1 := ⟨rem - 1, by omega⟩
    obtain ⟨e, h1, h2⟩ := hfail 0 (by omega)
    have h3 := hcancel 0 (by omega)
    simp only [Nat.add_zero] at h1 h3
    rw [addKey_loop_fail prev rem i err w e h1 h2 h3]
    have := ih rem (i + 1) (some e) w.afterFailure (by omega)
      (failsPlainly_shift w k hfail) (cancel_shift w k hcancel) hr
      (by
        show isConflict (w.auth (w.authCalls + 1 + k)) = true
        rw [show w.authCalls + 1 + k = w.authCalls + (k + 1) by omega]
        exact hc)
    obtain ⟨a, b, c, d, f⟩ := this
    refine ⟨a, ?_, c, ?_, ?_⟩
    · simp [failedAttempts, b]
    · rw [d]; show w.authCalls + 1 + k + 1 = _; omega
    · rw [f]; show w.waits + 1 + k = _; omega

theorem addKey_loop_exhausted (prev : Session) :
    ∀ (rem i : Nat) (err : Option Err) (w : World),
      (∀ j, j < rem → FailsPlainly w (w.authCalls + j)) →
      (∀ j, j < rem → w.cancel (w.waits + j) = false) →
      (controllerState.addKey.loop prev rem i err w).val =
          (match (if rem = 0 then err else (w.auth (w.authCalls + rem - 1)).2) with
            | none => .ok ()
            | some e => .error e) ∧
        (controllerState.addKey.loop prev rem i err w).calls = failedAttempts i rem := by
  intro rem
  induction rem with
  | zero =>
    intro i err w _ _
    cases err <;> simp [controllerState.addKey.loop, failedAttempts]
  | succ rem ih =>
    intro i err w hfail hcancel
    obtain ⟨e, h1, h2⟩ := hfail 0 (by omega)
    have h3 := hcancel 0 (by omega)
    simp only [Nat.add_zero] at h1 h3
    rw [addKey_loop_fail prev rem i err w e h1 h2 h3]
    obtain ⟨a, b⟩ := ih (i + 1) (some e) w.afterFailure
      (failsPlainly_shift w rem hfail) (cancel_shift w rem hcancel)
    refine ⟨?_, by simp [failedAttempts, b]⟩
    show (controllerState.addKey.loop prev rem (i + 1) (some e) w.afterFailure).val = _
    rw [a]
    by_cases hz : rem = 0
    · subst hz; simp [h1]
    · have h4 : w.afterFailure.auth (w.afterFailure.authCalls + rem - 1)
          = w.auth (w.authCalls + (rem + 1) - 1) := by
        show w.auth (w.authCalls + 1 + rem - 1) = _
        rw [show w.authCalls + 1 + rem - 1 = w.authCalls + (rem + 1) - 1 by omega]
      simp [hz, h4]

theorem attempts_failedAttempts (i k : Nat) : attempts (failedAttempts i k) = k := by
  induction k generalizing i with
  | zero => simp [failedAttempts, attempts]
  | succ k ih =>
    have := ih (i + 1)
    simp [failedAttempts, attempts] at this ⊢
    exact this

theorem attempts_append (a b : List Call) : attempts (a ++ b) = attempts a + attempts b := by
  simp [attempts]

theorem backoffs_append (a b : List Call) : backoffs (a ++ b) = backoffs a ++ backoffs b := by
  induction a with
  | nil => simp [backoffs]
  | cons c cs ih => cases c <;> simp [backoffs, ih]

theorem backoffs_failedAttempts (i k : Nat) :
    backoffs (failedAttempts i k) = (List.range k).map fun j => 25 * Millisecond * 2 ^ (i + j) := by
  induction k generalizing i with
  | zero => simp [failedAttempts, backoffs]
  | succ k ih =>
    rw [List.range_succ_eq_map]
    simp [failedAttempts, backoffs, ih (i + 1), Function.comp_def]
    intro a _
    left
    omega

theorem sum_backoffs (k : Nat) :
    ((List.range k).map fun j => 25 * Millisecond * (2 : Int) ^ (0 + j)).sum
      = 25 * Millisecond * (2 ^ k - 1) := by
  induction k with
  | zero => simp
  | succ k ih =>
    rw [List.range_succ, List.map_append, List.sum_append, ih]
    simp
    ring

theorem addKey_eq_loop (w : World) :
    controllerState.addKey w = controllerState.addKey.loop w.cs.sn 5 0 none w := by
  simp [controllerState.addKey, M.bind, getCS]

theorem failsPlainly_of_ne_none (w : World) (n : Nat)
    (hshort : w.cs.isRefresh = false ∨ isConflict (w.auth n) = false)
    (h : (w.auth n).2 ≠ none) : FailsPlainly w n := by
  cases h1 : (w.auth n).2 with
  | none => exact absurd h1 h
  | some e =>
    refine ⟨e, h1, ?_⟩
    rcases hshort with hr | hc
    · simp [hr]
    · simp [isConflict, h1] at hc
      simp [hc]

theorem ne_none_of_isConflict (reply : Session × Option Err) (h : isConflict reply = true) :
    reply.2 ≠ none := by
  intro hn
  simp [isConflict, hn] at h

/-! ## Register, then sync -/

theorem Stop_first_call (l : Link) (w : World) :
    ∃ rest, (Link.Stop l w).calls = .routeList FwMark :: rest := by
  have h1 : Link.Stop l = M.bind (wrapErr "error flushing routes" flushRoutes)
      (fun _ => wrapErr "error flushing rules" flushRules) := rfl
  have h2 : flushRoutes = M.bind getOurRoutingTable (fun rs => flushRoutes.loop rs) := rfl
  obtain ⟨t1, ht1⟩ := bind_calls_prefix (wrapErr "error flushing routes" flushRoutes)
    (fun _ => wrapErr "error flushing rules" flushRules) w
  obtain ⟨t2, ht2⟩ := bind_calls_prefix getOurRoutingTable (fun rs => flushRoutes.loop rs) w
  have h3 : (getOurRoutingTable w).calls = [.routeList FwMark] := by
    simp only [getOurRoutingTable, netlink.RouteListFiltered, call]
    split <;> rfl
  rw [h1, ht1, wrapErr_calls, h2, ht2, h3]
  exact ⟨_, rfl⟩

theorem runAddKeyLoop_next_entry (fuel n : Nat) (w : World)
    (h : (controllerState.addKeyOnceAndSyncLoop fuel w).val = .ok (some ()) ∨
      ∃ e, (controllerState.addKeyOnceAndSyncLoop fuel w).val = .error e ∧
        e.is .needsReAdd = true) :
    (controllerState.runAddKeyLoop.loop fuel (n + 1) w).calls =
      (controllerState.addKeyOnceAndSyncLoop fuel w).calls ++
        (controllerState.runAddKeyLoop.loop fuel n
          (controllerState.addKeyOnceAndSyncLoop fuel w).world).calls := by
  rw [controllerState.runAddKeyLoop.loop]
  simp only [bind_run]
  rw [bind_attempt_calls]
  rcases h with h | ⟨e, h, he⟩
  · rw [h]
  · rw [h]; simp [he]

theorem filter_head_erase (p : Route → Bool) (r : Route) (rs : List Route) :
    ∀ (R : List Route), R.filter p = r :: rs →
      r ∈ R ∧ (R.erase r).filter p = rs ∧
        (R.erase r).filter (fun x => !(p x)) = R.filter (fun x => !(p x)) := by
  intro R
  induction R with
  | nil => intro h; simp at h
  | cons x xs ih =>
    intro h
    by_cases hx : p x = true
    · rw [List.filter_cons_of_pos hx] at h
      obtain ⟨h1, h2⟩ := List.cons.inj h
      subst h1
      simp [hx, h2]
    · have hx' : p x = false := by simpa using hx
      rw [List.filter_cons_of_neg hx] at h
      obtain ⟨a, b, c⟩ := ih h
      have hpr : p r = true := by
        have : r ∈ xs.filter p := by rw [h]; simp
        exact (List.mem_filter.mp this).2
      have hne : x ≠ r := by
        intro e
        rw [e, hpr] at hx'
        exact Bool.noConfusion hx'
      refine ⟨List.mem_cons_of_mem _ a, ?_, ?_⟩
      · rw [List.erase_cons_tail (by simpa using hne)]
        rw [List.filter_cons_of_neg hx]
        exact b
      · rw [List.erase_cons_tail (by simpa using hne)]
        simp [hx', c]

theorem flushRoutes_loop_clears (p : Route → Bool) :
    ∀ (rs : List Route) (w : World), w.routes.filter p = rs →
      (∀ r, r ∈ rs → w.fault (.routeDel r) = false) →
      (flushRoutes.loop rs w).val = .ok () ∧
        (flushRoutes.loop rs w).world
          = { w with routes := w.routes.filter (fun x => !(p x)) } := by
  intro rs
  induction rs with
  | nil =>
    intro w h _
    have h2 : w.routes.filter (fun x => !(p x)) = w.routes := by
      rw [List.filter_eq_self]
      intro a ha
      have : a ∉ w.routes.filter p := by rw [h]; simp
      simpa [List.mem_filter, ha] using this
    simp [flushRoutes.loop, h2]
  | cons r rs ih =>
    intro w h hf
    obtain ⟨a, b, c⟩ := filter_head_erase p r rs w.routes h
    have hfr := hf r (by simp)
    have h1 : netlink.RouteDel r w
        = ⟨.ok (), { w with routes := w.routes.erase r }, [.routeDel r]⟩ := by
      simp [netlink.RouteDel, call, hfr, a]
    have hb := bind_val_ok (netlink.RouteDel r) (fun _ => flushRoutes.loop rs) w () (by rw [h1])
    rw [h1] at hb
    obtain ⟨i1, i2⟩ := ih { w with routes := w.routes.erase r } b
      (fun x hx => hf x (List.mem_cons_of_mem _ hx))
    have e : flushRoutes.loop (r :: rs) = M.bind (netlink.RouteDel r) (fun _ => flushRoutes.loop rs) := rfl
    rw [e]
    refine ⟨by rw [hb.1]; exact i1, ?_⟩
    rw [hb.2.1, i2]
    simp [c]

theorem flushRoutes_clears (w : World) (hl : w.fault (.routeList FwMark) = false)
    (hf : ∀ r, r ∈ w.routes.filter (fun x => x.Table == FwMark) → w.fault (.routeDel r) = false) :
    (flushRoutes w).val = .ok () ∧
      (flushRoutes w).world
        = { w with routes := w.routes.filter (fun x => !(x.Table == FwMark)) } := by
  have h1 : getOurRoutingTable w
      = ⟨.ok (w.routes.filter (fun x => x.Table == FwMark)), w, [.routeList FwMark]⟩ := by
    simp [getOurRoutingTable, netlink.RouteListFiltered, call, hl]
  have e : flushRoutes = M.bind getOurRoutingTable (fun rs => flushRoutes.loop rs) := rfl
  have hb := bind_val_ok getOurRoutingTable (fun rs => flushRoutes.loop rs) w _ (by rw [h1])
  rw [h1] at hb
  obtain ⟨a, b⟩ := flushRoutes_loop_clears (fun x => x.Table == FwMark) _ w rfl hf
  rw [e]
  exact ⟨by rw [hb.1]; exact a, by rw [hb.2.1]; exact b⟩

theorem flushRules_loop_routes : ∀ (rs : List Rule) (w : World),
    (flushRules.loop rs w).world.routes = w.routes := by
  intro rs
  induction rs with
  | nil => intro w; rfl
  | cons r rs ih =>
    intro w
    rw [flushRules.loop]
    split
    · simp only [netlink.RuleDel, call]
      split
      · rfl
      · split <;> rfl
    · exact ih w

theorem wrapErr_world {α : Type} (text : String) (m : M α) (w : World) :
    (wrapErr text m w).world = (m w).world := by
  unfold wrapErr
  rcases hm : m w with ⟨v, w1, c1⟩
  cases v <;> rfl

theorem flushRules_routes (w : World) : (flushRules w).world.routes = w.routes := by
  have e : flushRules = M.bind (wrapErr "error getting routing rules" netlink.RuleList)
      (fun allRules => flushRules.loop allRules) := rfl
  rw [e]
  by_cases hf : w.fault .ruleList = true
  · have h1 : wrapErr "error getting routing rules" netlink.RuleList w
        = ⟨.error (.wrap "error getting routing rules" (.sys .ruleList)), w, [.ruleList]⟩ := by
      simp [wrapErr, netlink.RuleList, call, hf]
    have hb := bind_val_error (wrapErr "error getting routing rules" netlink.RuleList)
      (fun allRules => flushRules.loop allRules) w _ (by rw [h1])
    rw [hb.2.1, h1]
  · have h1 : wrapErr "error getting routing rules" netlink.RuleList w
        = ⟨.ok w.rules, w, [.ruleList]⟩ := by
      simp [wrapErr, netlink.RuleList, call, hf]
    have hb := bind_val_ok (wrapErr "error getting routing rules" netlink.RuleList)
      (fun allRules => flushRules.loop allRules) w _ (by rw [h1])
    rw [hb.2.1, h1]
    exact flushRules_loop_routes _ _

theorem Stop_clears_routes (l : Link) (w : World) (hl : w.fault (.routeList FwMark) = false)
    (hf : ∀ r, r ∈ w.routes.filter (fun x => x.Table == FwMark) → w.fault (.routeDel r) = false) :
    (Link.Stop l w).world.routes = w.routes.filter (fun x => !(x.Table == FwMark)) := by
  have e : Link.Stop l = M.bind (wrapErr "error flushing routes" flushRoutes)
      (fun _ => wrapErr "error flushing rules" flushRules) := rfl
  obtain ⟨a, b⟩ := flushRoutes_clears w hl hf
  have h1 := wrapErr_ok "error flushing routes" flushRoutes w () a
  have hb := bind_val_ok (wrapErr "error flushing routes" flushRoutes)
    (fun _ => wrapErr "error flushing rules" flushRules) w () h1.1
  rw [e, hb.2.1, wrapErr_world, flushRules_routes, h1.2.1, b]

theorem filter_not_filter (R : List Route) :
    (R.filter (fun x => !(x.Table == FwMark))).filter (fun x => x.Table == FwMark) = [] := by
  rw [List.filter_filter]
  simp

theorem addKeyOnceAndSyncLoop_body_first_call (fuel : Nat) (w : World) :
    ∃ rest, (controllerState.addKeyOnceAndSyncLoop.body fuel w).calls = .addKey :: rest := by
  have h1 : controllerState.addKeyOnceAndSyncLoop.body fuel =
      M.bind (wrapErr "error adding key to server in region" controllerState.addKey)
        (fun _ => M.bind (modifyCS fun s => { s with isRefresh := true })
          (fun _ => controllerState.syncLoop fuel)) := rfl
  obtain ⟨t, ht⟩ := bind_calls_prefix
    (wrapErr "error adding key to server in region" controllerState.addKey)
    (fun _ => M.bind (modifyCS fun s => { s with isRefresh := true })
          (fun _ => controllerState.syncLoop fuel)) w
  obtain ⟨r, hr⟩ := addKey_loop_first_call w.cs.sn 4 0 none w
  rw [h1, ht, wrapErr_calls, addKey_eq_loop, hr]
  exact ⟨_, rfl⟩

theorem addKeyOnceAndSyncLoop_eq_deferred (fuel : Nat) (w : World) :
    controllerState.addKeyOnceAndSyncLoop fuel w =
      deferred (Link.Stop w.cs.l) (controllerState.addKeyOnceAndSyncLoop.body fuel) w := by
  simp [controllerState.addKeyOnceAndSyncLoop, M.bind, getCS]

theorem addKeyOnceAndSyncLoop_first_call (fuel : Nat) (w : World) :
    ∃ rest, (controllerState.addKeyOnceAndSyncLoop fuel w).calls = .addKey :: rest := by
  obtain ⟨r, hr⟩ := addKeyOnceAndSyncLoop_body_first_call fuel w
  obtain ⟨_, b, _⟩ := deferred_run (Link.Stop w.cs.l)
    (controllerState.addKeyOnceAndSyncLoop.body fuel) w
  rw [addKeyOnceAndSyncLoop_eq_deferred, b, hr]
  exact ⟨_, rfl⟩

theorem runAddKeyLoop_loop_first_call (fuel n : Nat) (w : World) :
    ∃ rest, (controllerState.runAddKeyLoop.loop fuel (n + 1) w).calls = .addKey :: rest := by
  rw [controllerState.runAddKeyLoop.loop]
  simp only [bind_run]
  rw [bind_attempt_calls]
  obtain ⟨r, hr⟩ := addKeyOnceAndSyncLoop_first_call fuel w
  rw [hr]
  exact ⟨_, rfl⟩

/-- C6, as the code has it: `Stop` is deferred.  In every entry of
`addKeyOnceAndSyncLoop` the first call issued is the registration attempt; the
entry returns what its body returns, whatever `Stop` returns; `Stop` (whose calls
begin with the listing of table 1337) runs once, in the world the body left and
after all calls of the body, when the body has returned, and not at all while
the body is still running.  If the kernel refuses neither that listing nor the
deletion of a listed route, the entry leaves no route in table 1337 and leaves
the routes of the other tables as they were.  When the entry returns nil or
`errNeedsReAdd`, `runAddKeyLoop` goes on with the next entry: the calls of the
next entry follow those of this entry, that is, follow its `Stop`, and they begin
with a registration attempt. -/
theorem addKeyOnceAndSyncLoop_stop_on_exit (fuel : Nat) (w : World) :
    (∃ rest, (controllerState.addKeyOnceAndSyncLoop fuel w).calls = .addKey :: rest) ∧
      (controllerState.addKeyOnceAndSyncLoop fuel w).val
        = (controllerState.addKeyOnceAndSyncLoop.body fuel w).val ∧
      (controllerState.addKeyOnceAndSyncLoop fuel w).calls =
        (controllerState.addKeyOnceAndSyncLoop.body fuel w).calls ++
          (if stillRunning (controllerState.addKeyOnceAndSyncLoop.body fuel w).val then []
           else (Link.Stop w.cs.l (controllerState.addKeyOnceAndSyncLoop.body fuel w).world).calls) ∧
      (controllerState.addKeyOnceAndSyncLoop fuel w).world =
        (if stillRunning (controllerState.addKeyOnceAndSyncLoop.body fuel w).val then
          (controllerState.addKeyOnceAndSyncLoop.body fuel w).world
         else (Link.Stop w.cs.l (controllerState.addKeyOnceAndSyncLoop.body fuel w).world).world) ∧
      (∃ rest, (controllerState.addKeyOnceAndSyncLoop.body fuel w).calls = .addKey :: rest) ∧
      (∀ (l : Link) (w1 : World), ∃ rest, (Link.Stop l w1).calls = .routeList FwMark :: rest) ∧
      (stillRunning (controllerState.addKeyOnceAndSyncLoop.body fuel w).val = false →
        (controllerState.addKeyOnceAndSyncLoop.body fuel w).world.fault (.routeList FwMark)
          = false →
        (∀ r, r ∈ (controllerState.addKeyOnceAndSyncLoop.body fuel w).world.routes.filter
            (fun x => x.Table == FwMark) →
          (controllerState.addKeyOnceAndSyncLoop.body fuel w).world.fault (.routeDel r)
            = false) →
        (controllerState.addKeyOnceAndSyncLoop fuel w).world.routes =
            (controllerState.addKeyOnceAndSyncLoop.body fuel w).world.routes.filter
              (fun x => !(x.Table == FwMark)) ∧
          (controllerState.addKeyOnceAndSyncLoop fuel w).world.routes.filter
            (fun x => x.Table == FwMark) = []) ∧
      (∀ n, ((controllerState.addKeyOnceAndSyncLoop fuel w).val = .ok (some ()) ∨
          ∃ e, (controllerState.addKeyOnceAndSyncLoop fuel w).val = .error e ∧
            e.is .needsReAdd = true) →
        (controllerState.runAddKeyLoop.loop fuel (n + 1) w).calls =
          (controllerState.addKeyOnceAndSyncLoop fuel w).calls ++
            (controllerState.runAddKeyLoop.loop fuel n
              (controllerState.addKeyOnceAndSyncLoop fuel w).world).calls) ∧
      (∀ n, ((controllerState.addKeyOnceAndSyncLoop fuel w).val = .ok (some ()) ∨
          ∃ e, (controllerState.addKeyOnceAndSyncLoop fuel w).val = .error e ∧
            e.is .needsReAdd = true) →
        ∃ rest, (controllerState.runAddKeyLoop.loop fuel (n + 2) w).calls =
          (controllerState.addKeyOnceAndSyncLoop fuel w).calls ++ .addKey :: rest) := by
  have h0 := addKeyOnceAndSyncLoop_eq_deferred fuel w
  obtain ⟨a, b, c⟩ := deferred_run (Link.Stop w.cs.l)
    (controllerState.addKeyOnceAndSyncLoop.body fuel) w
  refine ⟨addKeyOnceAndSyncLoop_first_call fuel w, by rw [h0, a], by rw [h0, b], by rw [h0, c],
    addKeyOnceAndSyncLoop_body_first_call fuel w, Stop_first_call, ?_,
    fun n h => runAddKeyLoop_next_entry fuel n w h, ?_⟩
  · intro hrun hl hf
    have hs := Stop_clears_routes w.cs.l _ hl hf
    have hw : (controllerState.addKeyOnceAndSyncLoop fuel w).world =
        (Link.Stop w.cs.l (controllerState.addKeyOnceAndSyncLoop.body fuel w).world).world := by
      rw [h0, c, hrun]
      simp
    rw [hw, hs]
    exact ⟨rfl, filter_not_filter _⟩
  · intro n h
    obtain ⟨r, hr⟩ := runAddKeyLoop_loop_first_call fuel n
      (controllerState.addKeyOnceAndSyncLoop fuel w).world
    refine ⟨r, ?_⟩
    rw [runAddKeyLoop_next_entry fuel (n + 1) w h, hr]

/-- C6 for an entry that ends with `errNeedsReAdd` (last handshake 150s ago) while
the two routes of the session are in table 1337: the body has returned and leaves
the two routes, no route call is refused, and once the entry has returned the
table is empty; the calls of the second entry follow those of the first and
begin with a registration attempt. -/
theorem addKeyOnceAndSyncLoop_stop_on_exit_witness :
    ((controllerState.addKeyOnceAndSyncLoop 1 exWorldStale).val = .error .needsReAdd ∧
        stillRunning (controllerState.addKeyOnceAndSyncLoop.body 1 exWorldStale).val = false ∧
        (controllerState.addKeyOnceAndSyncLoop.body 1 exWorldStale).world.routes = exRoutes ∧
        (controllerState.addKeyOnceAndSyncLoop.body 1 exWorldStale).world.fault
          (.routeList FwMark) = false ∧
        (∀ r, r ∈ (controllerState.addKeyOnceAndSyncLoop.body 1 exWorldStale).world.routes.filter
            (fun x => x.Table == FwMark) →
          (controllerState.addKeyOnceAndSyncLoop.body 1 exWorldStale).world.fault (.routeDel r)
            = false)) ∧
      ((controllerState.addKeyOnceAndSyncLoop 1 exWorldStale).world.routes =
          (controllerState.addKeyOnceAndSyncLoop.body 1 exWorldStale).world.routes.filter
            (fun x => !(x.Table == FwMark)) ∧
        (controllerState.addKeyOnceAndSyncLoop 1 exWorldStale).world.routes.filter
          (fun x => x.Table == FwMark) = []) ∧
      (∃ rest, (controllerState.runAddKeyLoop.loop 1 (0 + 2) exWorldStale).calls =
        (controllerState.addKeyOnceAndSyncLoop 1 exWorldStale).calls ++ .addKey :: rest) :=
  ⟨by decide!,
    (addKeyOnceAndSyncLoop_stop_on_exit 1 exWorldStale).2.2.2.2.2.2.1
      (by decide!) (by decide!) (by decide!),
    (addKeyOnceAndSyncLoop_stop_on_exit 1 exWorldStale).2.2.2.2.2.2.2.2 0
      (Or.inr ⟨.needsReAdd, by decide!, rfl⟩)⟩

/-- C6 fails as stated: in a first entry whose five registration attempts all
fail, the calls are the five attempts with their waits and only then the two
calls of `Stop`; the first call is the registration attempt and nothing precedes
it. -/
theorem addKeyOnceAndSyncLoop_first_entry_no_stop_before :
    (controllerState.addKeyOnceAndSyncLoop 3 exWorldAuthDown).calls =
        failedAttempts 0 5 ++ (Link.Stop "wg0" exWorldAuthDown).calls ∧
      (Link.Stop "wg0" exWorldAuthDown).calls = [.routeList FwMark, .ruleList] ∧
      (controllerState.addKeyOnceAndSyncLoop 3 exWorldAuthDown).calls.head? = some .addKey ∧
      ((controllerState.addKeyOnceAndSyncLoop 3 exWorldAuthDown).calls.takeWhile
        fun c => c != .addKey) = [] := by
  decide!

/-! ## Registration with retry -/

/-- C7: without cancellation and without the Conflict shortcut, `addKey` makes at
most 5 attempts.  If the provider fails `k < 5` times and then succeeds, `addKey`
returns nil after `k + 1` attempts, the waits requested are `25ms * 2^i` for
`i < k`, in this order, their sum is `25ms * (2^k - 1)`, and the session of the
successful reply is stored.  If all 5 attempts fail, `addKey` returns the error of
the fifth attempt, after 5 attempts and the waits 25, 50, 100, 200, 400 ms. -/
theorem addKey_retries_with_backoff (w : World)
    (hcancel : ∀ n, w.cancel n = false)
    (hshort : w.cs.isRefresh = false ∨ ∀ n, isConflict (w.auth n) = false) :
    attempts (controllerState.addKey w).calls ≤ 5 ∧
      (∀ k, k < 5 → (∀ j, j < k → (w.auth (w.authCalls + j)).2 ≠ none) →
        (w.auth (w.authCalls + k)).2 = none →
        (controllerState.addKey w).val = .ok () ∧
          attempts (controllerState.addKey w).calls = k + 1 ∧
          backoffs (controllerState.addKey w).calls
            = ((List.range k).map fun i => 25 * Millisecond * 2 ^ i) ∧
          (backoffs (controllerState.addKey w).calls).sum = 25 * Millisecond * (2 ^ k - 1) ∧
          (controllerState.addKey w).world.cs.sn = (w.auth (w.authCalls + k)).1) ∧
      (∀ e, (∀ j, j < 5 → (w.auth (w.authCalls + j)).2 ≠ none) →
        (w.auth (w.authCalls + 4)).2 = some e →
        (controllerState.addKey w).val = .error e ∧
          attempts (controllerState.addKey w).calls = 5 ∧
          backoffs (controllerState.addKey w).calls
            = ((List.range 5).map fun i => 25 * Millisecond * 2 ^ i)) := by
  have hplain : ∀ n, (w.auth n).2 ≠ none → FailsPlainly w n := by
    intro n hn
    refine failsPlainly_of_ne_none w n ?_ hn
    rcases hshort with h | h
    · exact Or.inl h
    · exact Or.inr (h n)
  rw [addKey_eq_loop]
  refine ⟨addKey_loop_attempts_le _ 5 0 none w, ?_, ?_⟩
  · intro k hk hfail hok
    obtain ⟨a, b, c, _, _⟩ := addKey_loop_succeeds w.cs.sn k 5 0 none w hk
      (fun j hj => hplain _ (hfail j hj)) (fun j _ => hcancel _) hok
    have hb : backoffs (failedAttempts 0 k ++ [Call.addKey])
        = ((List.range k).map fun i => 25 * Millisecond * 2 ^ i) := by
      rw [backoffs_append, backoffs_failedAttempts]
      simp [backoffs]
    refine ⟨a, ?_, ?_, ?_, c⟩
    · rw [b, attempts_append, attempts_failedAttempts]; simp [attempts]
    · rw [b, hb]
    · rw [b, hb]
      have := sum_backoffs k
      simpa using this
  · intro e hfail he
    obtain ⟨a, b⟩ := addKey_loop_exhausted w.cs.sn 5 0 none w
      (fun j hj => hplain _ (hfail j hj)) (fun j _ => hcancel _)
    refine ⟨?_, ?_, ?_⟩
    · rw [a]
      simp [he]
    · rw [b, attempts_failedAttempts]
    · rw [b, backoffs_failedAttempts]
      simp

/-- C7 for a provider that fails three times and then succeeds: four attempts,
waits of 25, 50 and 100 ms, 175 ms in all. -/
theorem addKey_retries_with_backoff_witness :
    (∀ n, exWorldAuthThree.cancel n = false) ∧
      (exWorldAuthThree.cs.isRefresh = false ∨ ∀ n, isConflict (exWorldAuthThree.auth n) = false) ∧
      (controllerState.addKey exWorldAuthThree).val = .ok () ∧
      attempts (controllerState.addKey exWorldAuthThree).calls = 3 + 1 ∧
      backoffs (controllerState.addKey exWorldAuthThree).calls
        = ((List.range 3).map fun i => 25 * Millisecond * 2 ^ i) ∧
      (backoffs (controllerState.addKey exWorldAuthThree).calls).sum
        = 25 * Millisecond * (2 ^ 3 - 1) ∧
      (controllerState.addKey exWorldAuthThree).world.cs.sn = exSession :=
  ⟨fun _ => rfl, Or.inl rfl,
    (addKey_retries_with_backoff exWorldAuthThree (fun _ => rfl) (Or.inl rfl)).2.1 3 (by decide)
      (by intro j hj; interval_cases j <;> decide) (by decide)⟩

/-- C8: while refreshing, the first reply that is a Conflict (after `k < 5`
failures of another kind, none cancelled) makes `addKey` return nil at that
attempt: `k + 1` attempts, the `k` waits before it and no further one, and the
stored session is the one held before.  With a provider that always answers
Conflict this is the first attempt.  When not refreshing, a provider that always
answers Conflict is retried like any failing one: 5 attempts, all five waits, and
the Conflict error of the last attempt is returned. -/
theorem addKey_conflict_shortcut (w : World) :
    (w.cs.isRefresh = true → ∀ k, k < 5 →
      (∀ j, j < k → (w.auth (w.authCalls + j)).2 ≠ none ∧
        isConflict (w.auth (w.authCalls + j)) = false) →
      (∀ j, j < k → w.cancel (w.waits + j) = false) →
      isConflict (w.auth (w.authCalls + k)) = true →
      (controllerState.addKey w).val = .ok () ∧
        attempts (controllerState.addKey w).calls = k + 1 ∧
        backoffs (controllerState.addKey w).calls
          = ((List.range k).map fun i => 25 * Millisecond * 2 ^ i) ∧
        (controllerState.addKey w).world.authCalls = w.authCalls + k + 1 ∧
        (controllerState.addKey w).world.waits = w.waits + k ∧
        (controllerState.addKey w).world.cs.sn = w.cs.sn) ∧
      (w.cs.isRefresh = true → (∀ n, isConflict (w.auth n) = true) →
        (controllerState.addKey w).val = .ok () ∧
          attempts (controllerState.addKey w).calls = 1 ∧
          backoffs (controllerState.addKey w).calls = [] ∧
          (controllerState.addKey w).world.cs.sn = w.cs.sn) ∧
      (w.cs.isRefresh = false → (∀ n, w.cancel n = false) →
        (∀ j, j < 5 → isConflict (w.auth (w.authCalls + j)) = true) →
        ∃ e, (w.auth (w.authCalls + 4)).2 = some e ∧ e.is (.status StatusConflict) = true ∧
          (controllerState.addKey w).val = .error e ∧
          attempts (controllerState.addKey w).calls = 5 ∧
          backoffs (controllerState.addKey w).calls
            = ((List.range 5).map fun i => 25 * Millisecond * 2 ^ i)) := by
  have hmain : w.cs.isRefresh = true → ∀ k, k < 5 →
      (∀ j, j < k → (w.auth (w.authCalls + j)).2 ≠ none ∧
        isConflict (w.auth (w.authCalls + j)) = false) →
      (∀ j, j < k → w.cancel (w.waits + j) = false) →
      isConflict (w.auth (w.authCalls + k)) = true →
      (controllerState.addKey w).val = .ok () ∧
        attempts (controllerState.addKey w).calls = k + 1 ∧
        backoffs (controllerState.addKey w).calls
          = ((List.range k).map fun i => 25 * Millisecond * 2 ^ i) ∧
        (controllerState.addKey w).world.authCalls = w.authCalls + k + 1 ∧
        (controllerState.addKey w).world.waits = w.waits + k ∧
        (controllerState.addKey w).world.cs.sn = w.cs.sn := by
    intro hr k hk hfail hcancel hc
    rw [addKey_eq_loop]
    obtain ⟨a, b, c, d, f⟩ := addKey_loop_conflict_at w.cs.sn k 5 0 none w hk
      (fun j hj => failsPlainly_of_ne_none w _ (Or.inr (hfail j hj).2) (hfail j hj).1)
      hcancel hr hc
    refine ⟨a, ?_, ?_, d, f, c⟩
    · rw [b, attempts_append, attempts_failedAttempts]; simp [attempts]
    · rw [b, backoffs_append, backoffs_failedAttempts]
      simp [backoffs]
  refine ⟨hmain, ?_, ?_⟩
  · intro hr hall
    obtain ⟨a, b, c, _, _, f⟩ := hmain hr 0 (by decide) (fun j hj => absurd hj (by omega))
      (fun j hj => absurd hj (by omega)) (hall _)
    exact ⟨a, b, by simpa using c, f⟩
  · intro hr hcancel hall
    cases h4 : (w.auth (w.authCalls + 4)).2 with
    | none => exact absurd h4 (ne_none_of_isConflict _ (hall 4 (by decide)))
    | some e =>
      have he : e.is (.status StatusConflict) = true := by
        have := hall 4 (by decide)
        simpa [isConflict, h4] using this
      obtain ⟨a, b⟩ := addKey_loop_exhausted w.cs.sn 5 0 none w
        (fun j hj => failsPlainly_of_ne_none w _ (Or.inl hr)
          (ne_none_of_isConflict _ (hall j hj)))
        (fun j _ => hcancel _)
      refine ⟨e, rfl, he, ?_, ?_, ?_⟩
      · rw [addKey_eq_loop, a]; simp [h4]
      · rw [addKey_eq_loop, b, attempts_failedAttempts]
      · rw [addKey_eq_loop, b, backoffs_failedAttempts]; simp

/-- C8 for a refreshing controller that holds `exSession` and a provider that
always answers Conflict. -/
theorem addKey_conflict_shortcut_witness :
    exWorldConflict.cs.isRefresh = true ∧ (∀ n, isConflict (exWorldConflict.auth n) = true) ∧
      (controllerState.addKey exWorldConflict).val = .ok () ∧
      attempts (controllerState.addKey exWorldConflict).calls = 1 ∧
      backoffs (controllerState.addKey exWorldConflict).calls = [] ∧
      (controllerState.addKey exWorldConflict).world.cs.sn = exSession :=
  ⟨rfl, fun _ => rfl, (addKey_conflict_shortcut exWorldConflict).2.1 rfl (fun _ => rfl)⟩

/-! ## The device phase of Sync -/

/-- C9 at a failing input: the own key matches, the single peer has the right
endpoint, key and keepalive and no pre-shared key, but it allows `10.0.0.0/8`.
`syncDev` reports no change and issues no `ConfigureDevice`: the peer is left with
`10.0.0.0/8`. -/
theorem syncDev_keeps_narrow_range :
    (Link.syncDev "wg0" exSession exWorldNarrowPeer).val = .ok false ∧
      (Link.syncDev "wg0" exSession exWorldNarrowPeer).calls =
        [.wgNew, .linkByName "wg0", .device "wg0", .addrList 3] ∧
      (Link.syncDev "wg0" exSession exWorldNarrowPeer).world.dev = exWorldNarrowPeer.dev ∧
      (exWorldNarrowPeer.dev.map fun d => d.Peers.map fun p => p.AllowedIPs)
        = some [[⟨ip10, 8, 32⟩]] := by
  decide!

/-! ## The redirect rule -/

/-- C10 at a failing input: the canonical redirect rule stands first and a rule
with mark 1337, table 100 behind it.  `syncBlackholeRule` succeeds, issues no call
and leaves both rules: the partial match is not deleted. -/
theorem syncBlackholeRule_keeps_later_partial :
    (syncBlackholeRule exWorldRuleAfter.rules exWorldRuleAfter).val = .ok false ∧
      (syncBlackholeRule exWorldRuleAfter.rules exWorldRuleAfter).calls = [] ∧
      (syncBlackholeRule exWorldRuleAfter.rules exWorldRuleAfter).world.rules
        = [blackholeRule, partialRule] ∧
      (partialRule.Mark = FwMark ∧ partialRule.Table ≠ FwMark) := by
  decide!

/-! ## Addresses after the device phase -/

/-- C11 at three failing inputs, for the peer IP 300.  With the peer IP on the
interface as a /24 and as a /32, `syncDev` succeeds and leaves both addresses.
With the peer IP as a /24 alone and no peer configured, `syncDev` replaces the
peers, brings the link up, deletes nothing and adds nothing: the one address is
still the /24.  With the peer already right and that /24 as the one address,
`syncDev` reports no change and leaves the device as it was. -/
theorem syncDev_keeps_same_ip_addresses :
    exSession.PeerIP = 300 ∧
      (Link.syncDev "wg0" exSession exWorldTwoAddrs).val = .ok true ∧
      ((Link.syncDev "wg0" exSession exWorldTwoAddrs).world.dev.map fun d => (d.up, d.addrs))
        = some (true, [⟨300, 24, 32⟩, ⟨300, 32, 32⟩]) ∧
      (Link.syncDev "wg0" exSession exWorldWidePrefix).val = .ok true ∧
      ((Link.syncDev "wg0" exSession exWorldWidePrefix).world.dev.map fun d => (d.up, d.addrs))
        = some (true, [⟨300, 24, 32⟩]) ∧
      (Link.syncDev "wg0" exSession exWorldSyncedWidePrefix).val = .ok false ∧
      (Link.syncDev "wg0" exSession exWorldSyncedWidePrefix).world.dev
        = exWorldSyncedWidePrefix.dev ∧
      ((Link.syncDev "wg0" exSession exWorldSyncedWidePrefix).world.dev.map fun d => d.addrs)
        = some [⟨300, 24, 32⟩] := by
  decide!

/-! ## Routes after the routing phase -/

/-- C12 at two failing inputs, for the gateway 200: table 1337 holds the host
route, the default route by 200 and a second default route by 201 with metric 10.
Listed first, the second default route goes unnoticed: `syncRoutingTables` issues
the listing alone, reports no change and leaves three routes.  Listed last, it
is taken for the default route: `syncRoutingTables` issues a `RouteReplace`, which
rewrites the default route of metric 0, reports a change and again leaves three
routes, the one by 201 among them. -/
theorem syncRoutingTables_keeps_second_default :
    exSession.ServerVIP = 200 ∧ otherDefaultRoute.Table = FwMark ∧
      otherDefaultRoute.Dst = none ∧ otherDefaultRoute.Gw = some 201 ∧
      (Link.syncRoutingTables "wg0" exSession exWorldDefaultBefore).val = .ok false ∧
      (Link.syncRoutingTables "wg0" exSession exWorldDefaultBefore).calls
        = [.routeList FwMark] ∧
      (Link.syncRoutingTables "wg0" exSession exWorldDefaultBefore).world.routes
        = otherDefaultRoute :: exRoutes ∧
      (Link.syncRoutingTables "wg0" exSession exWorldDefaultAfter).val = .ok true ∧
      (Link.syncRoutingTables "wg0" exSession exWorldDefaultAfter).calls
        = [.routeList FwMark, .routeReplace (defaultRoute exSession)] ∧
      (Link.syncRoutingTables "wg0" exSession exWorldDefaultAfter).world.routes
        = exRoutes ++ [otherDefaultRoute] := by
  decide!

/-! ## The changed flag -/

/-- C13 at a failing input: everything is in place for the session, and a rule
with mark 1337, table 100 is listed before the canonical redirect rule.  `Sync`
returns changed = false and no error, yet it issued a `RuleDel` and the rule list
after the call differs from the one before. -/
theorem Sync_unchanged_after_rule_delete :
    (Link.Sync "wg0" exSession exWorldPartialFirst).val = .ok false ∧
      (Link.Sync "wg0" exSession exWorldPartialFirst).calls =
        [.wgNew, .linkByName "wg0", .device "wg0", .addrList 3, .routeList FwMark, .ruleList,
          .ruleDel partialRule] ∧
      exWorldPartialFirst.rules = [partialRule, blackholeRule, localExemptionRule] ∧
      (Link.Sync "wg0" exSession exWorldPartialFirst).world.rules
        = [blackholeRule, localExemptionRule] ∧
      (Link.Sync "wg0" exSession exWorldPartialFirst).world.rules ≠ exWorldPartialFirst.rules := by
  decide!

end Piad
